import Mathlib

/-!
# immich-auth-proxy: the forwarding and relay pipeline of `main.go`

A shallow embedding of `handleProxyRequest` and `copyResponse` together with the
parts of the Go standard library they call (`net/http` headers, `net/url`
resolution, printing and parsing, `strings.ToLower`), followed by the properties
of the proxy that are proved about them.

A Go string is a sequence of bytes.  Here a byte is written as the character with
that code, so a Go string is a `List Char` all of whose codes are below 256
(`IsByteString`); ASCII text is written `"text".toList`.

The token source (`tokenSource.Token()`) and the outbound transport
(`httpClient.Do`) are external collaborators and are parameters of the model.
Go maps are reference values: header maps live in a `Store` and requests hold
references into it.  The iteration order of a Go map is unspecified: a header map
is an association list whose order stands for the order of one iteration, and the
theorems hold for every such order.  Logging is not modelled.

The standard-library functions follow the Go 1.22 sources: `net/url` (`Parse`,
`ParseRequestURI`, `String`, `EscapedPath`, `ResolveReference`, `resolvePath`,
`escape`, `unescape`), `net/textproto` (`CanonicalMIMEHeaderKey`), `net/http`
(`Header`, `NewRequestWithContext`, `Error`).  The server turns the request target of
the request line into `r.URL` with `url.ParseRequestURI`, so the concrete inbound
URLs below are stated together with the request target they are parsed from.
-/

namespace AuthProxy

/-! ## Strings -/

/-- A Go `string`: a sequence of bytes, each written as the character with that code. -/
abbrev GoString := List Char

/-- The model string stands for a Go string: every element is a byte. -/
def IsByteString (s : GoString) : Prop := ∀ c ∈ s, c.toNat < 256

/-- Go `strings.HasPrefix`. -/
def hasPrefix : GoString → GoString → Bool
  | _, [] => true
  | [], _ :: _ => false
  | c :: s, d :: p => c == d && hasPrefix s p

/-- Go `strings.Contains` for a one-byte separator. -/
def containsByte (s : GoString) (c : Char) : Bool := s.any (· == c)

/-- Lower-case form of an ASCII upper-case letter (`c + ('a' - 'A')`), other bytes unchanged. -/
def lowerByte (c : Char) : Char :=
  if 'A' ≤ c ∧ c ≤ 'Z' then Char.ofNat (c.toNat + 32) else c

/-- Upper-case form of an ASCII lower-case letter (`c - ('a' - 'A')`), other bytes unchanged. -/
def upperByte (c : Char) : Char :=
  if 'a' ≤ c ∧ c ≤ 'z' then Char.ofNat (c.toNat - 32) else c

/-- Go `strings.ToLower`, on the bytes of the string.  ASCII letters are lowered.  The
only non-ASCII runes whose lower case is ASCII are U+0130 (bytes `C4 B0`, lowered to
`i`) and U+212A (bytes `E2 84 AA`, lowered to `k`); every other non-ASCII rune is
mapped by Go to a non-ASCII rune and its bytes are kept here as they are, which does
not change the outcome of comparing the result with an ASCII constant, the only use
`copyResponse` makes of it. -/
def toLower : GoString → GoString
  | [] => []
  | [c] => [lowerByte c]
  | [c, d] => if c.toNat = 0xC4 ∧ d.toNat = 0xB0 then ['i'] else lowerByte c :: toLower [d]
  | c :: d :: e :: rest =>
    if c.toNat = 0xC4 ∧ d.toNat = 0xB0 then 'i' :: toLower (e :: rest)
    else if c.toNat = 0xE2 ∧ d.toNat = 0x84 ∧ e.toNat = 0xAA then 'k' :: toLower rest
    else lowerByte c :: toLower (d :: e :: rest)

/-- ASCII case folding of a header name: the comparison HTTP prescribes for field names. -/
def asciiLower (s : GoString) : GoString := s.map lowerByte

/-! ## `net/textproto` and `net/http` headers -/

/-- Go `textproto.validHeaderFieldByte`: the bytes of an RFC 7230 token. -/
def validHeaderFieldByte (c : Char) : Bool :=
  ('0' ≤ c ∧ c ≤ '9') || ('a' ≤ c ∧ c ≤ 'z') || ('A' ≤ c ∧ c ≤ 'Z') ||
    "!#$%&'*+-.^_`|~".toList.contains c

/-- The canonicalising loop of Go `textproto.canonicalMIMEHeaderKey`: upper case for
the first letter and for a letter after a dash, lower case elsewhere. -/
def canonicalLoop : Bool → GoString → GoString
  | _, [] => []
  | upper, c :: rest =>
    let c1 := if upper then upperByte c else lowerByte c
    c1 :: canonicalLoop (c1 == '-') rest

/-- Go `textproto.CanonicalMIMEHeaderKey` (`http.CanonicalHeaderKey`): a key with a
byte that is not a token byte is returned unchanged, any other key is canonicalised. -/
def CanonicalMIMEHeaderKey (s : GoString) : GoString :=
  if s.all validHeaderFieldByte then canonicalLoop true s else s

/-- Go `http.Header`, a `map[string][]string`, as an association list. -/
abbrev Header := List (GoString × List GoString)

namespace Header

/-- The keys of the map, in the order of the association list. -/
def keys (h : Header) : List GoString := h.map Prod.fst

/-- Go map lookup `h[key]` with the comma-ok result. -/
def lookup (h : Header) (key : GoString) : Option (List GoString) :=
  match h with
  | [] => none
  | (k, vv) :: rest => if k = key then some vv else lookup rest key

/-- Go map index `h[key]`: the stored values, the nil slice for an absent key. -/
def get (h : Header) (key : GoString) : List GoString := (lookup h key).getD []

/-- Go map assignment `h[key] = vv`. -/
def assign (h : Header) (key : GoString) (vv : List GoString) : Header :=
  match h with
  | [] => [(key, vv)]
  | (k, old) :: rest => if k = key then (k, vv) :: rest else (k, old) :: assign rest key vv

/-- Go `Header.Set`: the canonical key is bound to the single value. -/
def Set (h : Header) (key value : GoString) : Header :=
  assign h (CanonicalMIMEHeaderKey key) [value]

/-- Go `Header.Add`: the value is appended to the values of the canonical key. -/
def Add (h : Header) (key value : GoString) : Header :=
  let k := CanonicalMIMEHeaderKey key
  assign h k (get h k ++ [value])

/-- Go `Header.Del`: the canonical key is removed. -/
def Del (h : Header) (key : GoString) : Header :=
  h.filter (fun e => e.1 ≠ CanonicalMIMEHeaderKey key)

/-- Go `Header.Clone`: a new map with a copy of every value slice.  (The header map of
a server request is never nil, so the nil case is not modelled.) -/
def Clone (h : Header) : Header := h.map (fun e => (e.1, e.2.map id))

/-- A well-formed `http.Header` as the Go server and client build it: a map (no key
twice) whose keys are in canonical form. -/
def WF (h : Header) : Prop := h.keys.Nodup ∧ ∀ k ∈ h.keys, CanonicalMIMEHeaderKey k = k

end Header

/-! ## The caller's `http.ResponseWriter` and the upstream `http.Response` -/

/-- The state of the caller's `http.ResponseWriter`. -/
structure ResponseWriter where
  /-- The header map returned by `w.Header()`. -/
  header : Header
  /-- The status passed to the first `WriteHeader`, if any. -/
  status : Option Nat
  /-- The bytes written to the body so far. -/
  body : GoString
deriving DecidableEq, Repr

/-- A fresh `ResponseWriter` as the server hands it to a handler. -/
def ResponseWriter.fresh : ResponseWriter := ⟨[], none, []⟩

/-- Go `ResponseWriter.WriteHeader`: the first call fixes the status.  (The panic of
the Go server on a code outside 100..999 and its treatment of informational codes are
not modelled; the handler itself passes 500, 502 or the upstream status.) -/
def ResponseWriter.WriteHeader (w : ResponseWriter) (code : Nat) : ResponseWriter :=
  match w.status with
  | none => { w with status := some code }
  | some _ => w

/-- Go `ResponseWriter.Write`: an implicit `WriteHeader(200)` when none was sent, then
the bytes are appended to the body. -/
def ResponseWriter.Write (w : ResponseWriter) (p : GoString) : ResponseWriter :=
  let w1 := w.WriteHeader 200
  { w1 with body := w1.body ++ p }

/-- Go `http.Error`: plain-text headers, the status, then the message and a newline.
(The removal of Content-Length is that of Go 1.23; it changes nothing on a response
that has no such header.) -/
def httpError (w : ResponseWriter) (error : GoString) (code : Nat) : ResponseWriter :=
  let h := w.header.Del "Content-Length".toList
  let h := h.Set "Content-Type".toList "text/plain; charset=utf-8".toList
  let h := h.Set "X-Content-Type-Options".toList "nosniff".toList
  let w1 := ({ w with header := h } : ResponseWriter).WriteHeader code
  w1.Write (error ++ ['\n'])

/-- The upstream `http.Response` as far as the relay reads it. -/
structure Response where
  StatusCode : Nat
  Header : Header
  Body : GoString
deriving DecidableEq, Repr

/-- The test of `copyResponse` for the headers it does not copy. -/
def isManagedHeader (key : GoString) : Bool :=
  toLower key == "content-encoding".toList ||
  toLower key == "content-length".toList ||
  toLower key == "transfer-encoding".toList ||
  toLower key == "connection".toList

/-- The inner loop of `copyResponse`: `w.Header().Add(key, value)` for each value. -/
def addValues (h : Header) (key : GoString) (values : List GoString) : Header :=
  values.foldl (fun acc value => acc.Add key value) h

/-- The header loop of `copyResponse` over the entries of `resp.Header`. -/
def copyHeaders (h : Header) (entries : Header) : Header :=
  entries.foldl (fun acc e => if isManagedHeader e.1 then acc else addValues acc e.1 e.2) h

/-- `copyResponse` of `main.go`: headers, status code, body. -/
def copyResponse (w : ResponseWriter) (resp : Response) : ResponseWriter :=
  let w1 := { w with header := copyHeaders w.header resp.Header }
  let w2 := w1.WriteHeader resp.StatusCode
  w2.Write resp.Body

/-! ## `net/url` -/

/-- Go `strings.Cut` for a one-byte separator: the text before the first separator,
the text after it, and whether it was found. -/
def cutByte : GoString → Char → GoString × GoString × Bool
  | [], _ => ([], [], false)
  | c :: s, sep =>
    if c = sep then ([], s, true)
    else
      let r := cutByte s sep
      (c :: r.1, r.2.1, r.2.2)

/-- Go `strings.LastIndex` for a one-byte separator (`none` for -1). -/
def lastIndexByte : GoString → Char → Option Nat
  | [], _ => none
  | c :: s, sep =>
    match lastIndexByte s sep with
    | some i => some (i + 1)
    | none => if c = sep then some 0 else none

/-- Go `strings.Index` (`none` for -1). -/
def indexOf : GoString → GoString → Option Nat
  | [], sub => if sub = [] then some 0 else none
  | c :: s, sub =>
    if hasPrefix (c :: s) sub then some 0 else (indexOf s sub).map (· + 1)

/-- Go `strings.HasSuffix` for a one-byte suffix. -/
def hasSuffixByte (s : GoString) (c : Char) : Bool := s.getLast? == some c

/-- The encoding modes of `net/url`. -/
inductive Encoding
  | encodePath
  | encodePathSegment
  | encodeHost
  | encodeZone
  | encodeUserPassword
  | encodeQueryComponent
  | encodeFragment
deriving DecidableEq, Repr

open Encoding

/-- Go `url.ishex`. -/
def ishex (c : Char) : Bool :=
  ('0' ≤ c ∧ c ≤ '9') || ('a' ≤ c ∧ c ≤ 'f') || ('A' ≤ c ∧ c ≤ 'F')

/-- Go `url.unhex`. -/
def unhex (c : Char) : Nat :=
  if '0' ≤ c ∧ c ≤ '9' then c.toNat - '0'.toNat
  else if 'a' ≤ c ∧ c ≤ 'f' then c.toNat - 'a'.toNat + 10
  else if 'A' ≤ c ∧ c ≤ 'F' then c.toNat - 'A'.toNat + 10
  else 0

/-- The table `upperhex` of `net/url`, indexed. -/
def upperhex (n : Nat) : Char := "0123456789ABCDEF".toList.getD n '0'

/-- Go `url.shouldEscape`. -/
def shouldEscape (c : Char) (mode : Encoding) : Bool :=
  if ('a' ≤ c ∧ c ≤ 'z') ∨ ('A' ≤ c ∧ c ≤ 'Z') ∨ ('0' ≤ c ∧ c ≤ '9') then false
  else if (mode = encodeHost ∨ mode = encodeZone) ∧ "!$&'()*+,;=:[]<>\"".toList.contains c then
    false
  else if "-_.~".toList.contains c then false
  else if "$&+,/:;=?@".toList.contains c then
    match mode with
    | encodePath => c == '?'
    | encodePathSegment => c == '/' || c == ';' || c == ',' || c == '?'
    | encodeUserPassword => c == '@' || c == '/' || c == '?' || c == ':'
    | encodeQueryComponent => true
    | encodeFragment => false
    | encodeHost => true
    | encodeZone => true
  else if mode = encodeFragment ∧ "!()*".toList.contains c then false
  else true

/-- Go `url.unescape`: `none` stands for the `EscapeError` or `InvalidHostError`. -/
def unescape : GoString → Encoding → Option GoString
  | [], _ => some []
  | c :: rest, mode =>
    if c = '%' then
      match rest with
      | a :: b :: rest2 =>
        if !ishex a || !ishex b then none
        else if mode = encodeHost ∧ unhex a < 8 ∧ ['%', a, b] ≠ "%25".toList then none
        else if mode = encodeZone ∧ ['%', a, b] ≠ "%25".toList ∧
            Char.ofNat (unhex a * 16 + unhex b) ≠ ' ' ∧
            shouldEscape (Char.ofNat (unhex a * 16 + unhex b)) encodeHost then none
        else (unescape rest2 mode).map (Char.ofNat (unhex a * 16 + unhex b) :: ·)
      | _ => none
    else if c = '+' then
      (unescape rest mode).map ((if mode = encodeQueryComponent then ' ' else '+') :: ·)
    else if (mode = encodeHost ∨ mode = encodeZone) ∧ c.toNat < 0x80 ∧
        shouldEscape c encodeHost then none
    else (unescape rest mode).map (c :: ·)

/-- Go `url.escape`. -/
def escape : GoString → Encoding → GoString
  | [], _ => []
  | c :: rest, mode =>
    if c = ' ' ∧ mode = encodeQueryComponent then '+' :: escape rest mode
    else if shouldEscape c mode then
      '%' :: upperhex (c.toNat / 16) :: upperhex (c.toNat % 16) :: escape rest mode
    else c :: escape rest mode

/-- Go `url.validEncoded`. -/
def validEncoded (s : GoString) (mode : Encoding) : Bool :=
  s.all (fun c =>
    "!$&'()*+,;=:@".toList.contains c || "[]".toList.contains c || c == '%' ||
      !shouldEscape c mode)

/-- Go `url.Userinfo`. -/
structure Userinfo where
  username : GoString
  password : GoString
  passwordSet : Bool
deriving DecidableEq, Repr

/-- Go `(*Userinfo).String`. -/
def Userinfo.String (u : Userinfo) : GoString :=
  escape u.username encodeUserPassword ++
    (if u.passwordSet then ':' :: escape u.password encodeUserPassword else [])

/-- Go `url.URL`. -/
structure URL where
  Scheme : GoString := []
  Opaque : GoString := []
  User : Option Userinfo := none
  Host : GoString := []
  Path : GoString := []
  RawPath : GoString := []
  OmitHost : Bool := false
  ForceQuery : Bool := false
  RawQuery : GoString := []
  Fragment : GoString := []
  RawFragment : GoString := []
deriving DecidableEq, Repr

/-- Go `(*URL).setPath`; `none` is the error, in which case the receiver is not changed. -/
def URL.setPath (u : URL) (p : GoString) : Option URL :=
  match unescape p encodePath with
  | none => none
  | some path =>
    some { u with Path := path, RawPath := if p = escape path encodePath then [] else p }

/-- Go `(*URL).EscapedPath`. -/
def URL.EscapedPath (u : URL) : GoString :=
  if u.RawPath ≠ [] ∧ validEncoded u.RawPath encodePath ∧
      unescape u.RawPath encodePath = some u.Path then u.RawPath
  else if u.Path = "*".toList then "*".toList
  else escape u.Path encodePath

/-- Go `(*URL).setFragment`; `none` is the error. -/
def URL.setFragment (u : URL) (f : GoString) : Option URL :=
  match unescape f encodeFragment with
  | none => none
  | some frag =>
    some { u with Fragment := frag,
                  RawFragment := if f = escape frag encodeFragment then [] else f }

/-- Go `(*URL).EscapedFragment`. -/
def URL.EscapedFragment (u : URL) : GoString :=
  if u.RawFragment ≠ [] ∧ validEncoded u.RawFragment encodeFragment ∧
      unescape u.RawFragment encodeFragment = some u.Fragment then u.RawFragment
  else escape u.Fragment encodeFragment

/-- The scan of Go `url.getScheme` from byte `i` on: the scheme and the rest, `none`
for the error "missing protocol scheme". -/
def getSchemeFrom (rawURL : GoString) : Nat → GoString → Option (GoString × GoString)
  | _, [] => some ([], rawURL)
  | i, c :: rest =>
    if ('a' ≤ c ∧ c ≤ 'z') ∨ ('A' ≤ c ∧ c ≤ 'Z') then getSchemeFrom rawURL (i + 1) rest
    else if ('0' ≤ c ∧ c ≤ '9') ∨ c = '+' ∨ c = '-' ∨ c = '.' then
      if i = 0 then some ([], rawURL) else getSchemeFrom rawURL (i + 1) rest
    else if c = ':' then
      if i = 0 then none else some (rawURL.take i, rest)
    else some ([], rawURL)

/-- Go `url.getScheme`. -/
def getScheme (rawURL : GoString) : Option (GoString × GoString) :=
  getSchemeFrom rawURL 0 rawURL

/-- Go `url.stringContainsCTLByte`. -/
def stringContainsCTLByte (s : GoString) : Bool :=
  s.any (fun b => b.toNat < 0x20 || b.toNat == 0x7f)

/-- Go `url.validOptionalPort`. -/
def validOptionalPort : GoString → Bool
  | [] => true
  | c :: digits => c == ':' && digits.all (fun b => !(b < '0' || b > '9'))

/-- Go `url.validUserinfo`. -/
def validUserinfo (s : GoString) : Bool :=
  s.all (fun r =>
    ('A' ≤ r ∧ r ≤ 'Z') || ('a' ≤ r ∧ r ≤ 'z') || ('0' ≤ r ∧ r ≤ '9') ||
      "-._:~!$&'()*+,;=%@".toList.contains r)

/-- Go `url.parseHost`: `host[:port]` without user information. -/
def parseHost (host : GoString) : Option GoString :=
  if hasPrefix host ['['] then
    match lastIndexByte host ']' with
    | none => none
    | some i =>
      if !validOptionalPort (host.drop (i + 1)) then none
      else
        match indexOf (host.take i) "%25".toList with
        | some zone =>
          match unescape (host.take zone) encodeHost,
                unescape ((host.take i).drop zone) encodeZone,
                unescape (host.drop i) encodeHost with
          | some host1, some host2, some host3 => some (host1 ++ host2 ++ host3)
          | _, _, _ => none
        | none => unescape host encodeHost
  else
    match lastIndexByte host ':' with
    | some i => if !validOptionalPort (host.drop i) then none else unescape host encodeHost
    | none => unescape host encodeHost

/-- Go `url.parseAuthority`. -/
def parseAuthority (authority : GoString) : Option (Option Userinfo × GoString) :=
  match lastIndexByte authority '@' with
  | none => (parseHost authority).map (fun host => (none, host))
  | some i =>
    match parseHost (authority.drop (i + 1)) with
    | none => none
    | some host =>
      let userinfo := authority.take i
      if !validUserinfo userinfo then none
      else if !containsByte userinfo ':' then
        (unescape userinfo encodeUserPassword).map
          (fun name => (some ⟨name, [], false⟩, host))
      else
        let c := cutByte userinfo ':'
        match unescape c.1 encodeUserPassword, unescape c.2.1 encodeUserPassword with
        | some username, some password => some (some ⟨username, password, true⟩, host)
        | _, _ => none

/-- Go `url.parse`: the URL without fragment; `viaRequest` is set for a request URI.
`none` stands for the error. -/
def parse (rawURL : GoString) (viaRequest : Bool) : Option URL :=
  if stringContainsCTLByte rawURL then none
  else if rawURL = [] ∧ viaRequest then none
  else if rawURL = "*".toList then some { Path := "*".toList }
  else
    match getScheme rawURL with
    | none => none
    | some (scheme0, rest0) =>
      let scheme := toLower scheme0
      let forceQuery := hasSuffixByte rest0 '?' && rest0.count '?' == 1
      let rest1 := if forceQuery then rest0.take (rest0.length - 1) else (cutByte rest0 '?').1
      let rawQuery := if forceQuery then [] else (cutByte rest0 '?').2.1
      let url : URL := { Scheme := scheme, ForceQuery := forceQuery, RawQuery := rawQuery }
      if !hasPrefix rest1 ['/'] ∧ scheme ≠ [] then some { url with Opaque := rest1 }
      else if !hasPrefix rest1 ['/'] ∧ viaRequest then none
      else if !hasPrefix rest1 ['/'] ∧ containsByte (cutByte rest1 '/').1 ':' then none
      else if (scheme ≠ [] ∨ (!viaRequest ∧ !hasPrefix rest1 "///".toList)) ∧
          hasPrefix rest1 "//".toList then
        let afterSlashes := rest1.drop 2
        let authority := (cutByte afterSlashes '/').1
        let rest2 :=
          if (cutByte afterSlashes '/').2.2 then afterSlashes.drop authority.length else []
        match parseAuthority authority with
        | none => none
        | some (user, host) => URL.setPath { url with User := user, Host := host } rest2
      else if scheme ≠ [] ∧ hasPrefix rest1 ['/'] then
        URL.setPath { url with OmitHost := true } rest1
      else URL.setPath url rest1

/-- Go `url.Parse`. -/
def Parse (rawURL : GoString) : Option URL :=
  let c := cutByte rawURL '#'
  match parse c.1 false with
  | none => none
  | some url => if c.2.1 = [] then some url else url.setFragment c.2.1

/-- Go `url.ParseRequestURI`: how the server turns the request target into `r.URL`. -/
def ParseRequestURI (rawURL : GoString) : Option URL := parse rawURL true

/-- Go `(*URL).String`. -/
def URL.String (u : URL) : GoString :=
  let schemePart := if u.Scheme ≠ [] then u.Scheme ++ [':'] else []
  let buf :=
    if u.Opaque ≠ [] then schemePart ++ u.Opaque
    else
      let authority :=
        if u.Scheme ≠ [] ∨ u.Host ≠ [] ∨ u.User ≠ none then
          if u.OmitHost ∧ u.Host = [] ∧ u.User = none then []
          else
            (if u.Host ≠ [] ∨ u.Path ≠ [] ∨ u.User ≠ none then "//".toList else []) ++
            (match u.User with
             | some ui => ui.String ++ ['@']
             | none => []) ++
            (if u.Host ≠ [] then escape u.Host encodeHost else [])
        else []
      let path := u.EscapedPath
      let buf1 := schemePart ++ authority
      let buf2 := if path ≠ [] ∧ path.head? ≠ some '/' ∧ u.Host ≠ [] then buf1 ++ ['/'] else buf1
      let buf3 :=
        if buf2 = [] ∧ containsByte (cutByte path '/').1 ':' then buf2 ++ "./".toList else buf2
      buf3 ++ path
  let buf := if u.ForceQuery ∨ u.RawQuery ≠ [] then buf ++ ['?'] ++ u.RawQuery else buf
  if u.Fragment ≠ [] then buf ++ ['#'] ++ u.EscapedFragment else buf

/-- Go `strings.Split(s, "/")`: the segments that the `strings.Cut` loop of
`resolvePath` visits in turn. -/
def splitSlash : GoString → List GoString
  | [] => [[]]
  | c :: s =>
    if c = '/' then [] :: splitSlash s
    else
      match splitSlash s with
      | seg :: segs => (c :: seg) :: segs
      | [] => [[c]]

/-- The state of the loop of `resolvePath`: the builder `dst`, the flag `first` and
the segment `elem` seen last. -/
structure ResolveState where
  dst : GoString
  first : Bool
  elem : GoString
deriving DecidableEq, Repr

/-- One round of the loop of Go `url.resolvePath` on the segment `elem`. -/
def resolveStep (st : ResolveState) (elem : GoString) : ResolveState :=
  if elem = ".".toList then { st with first := false, elem := elem }
  else if elem = "..".toList then
    let str := st.dst.drop 1
    match lastIndexByte str '/' with
    | none => { dst := ['/'], first := true, elem := elem }
    | some index => { dst := '/' :: str.take index, first := st.first, elem := elem }
  else
    { dst := (if !st.first then st.dst ++ ['/'] else st.dst) ++ elem,
      first := false, elem := elem }

/-- Go `url.resolvePath`: the reference path against the base path, dot segments removed. -/
def resolvePath (base ref : GoString) : GoString :=
  let full :=
    match ref with
    | [] => base
    | c :: _ =>
      if c ≠ '/' then
        (match lastIndexByte base '/' with
         | some i => base.take (i + 1)
         | none => []) ++ ref
      else ref
  if full = [] then []
  else
    let st := (splitSlash full).foldl resolveStep { dst := ['/'], first := true, elem := [] }
    let r := if st.elem = ".".toList ∨ st.elem = "..".toList then st.dst ++ ['/'] else st.dst
    if r.length > 1 ∧ (r.drop 1).head? = some '/' then r.drop 1 else r

/-- Go `(*URL).setPath` as `ResolveReference` calls it: the error is ignored and
leaves the URL as it was. -/
def URL.setPathIgnoringError (u : URL) (p : GoString) : URL := (u.setPath p).getD u

/-- Go `(*URL).ResolveReference`. -/
def URL.ResolveReference (u ref : URL) : URL :=
  let url : URL := if ref.Scheme = [] then { ref with Scheme := u.Scheme } else ref
  if ref.Scheme ≠ [] ∨ ref.Host ≠ [] ∨ ref.User ≠ none then
    url.setPathIgnoringError (resolvePath ref.EscapedPath [])
  else if ref.Opaque ≠ [] then
    { url with User := none, Host := [], Path := [] }
  else
    let url : URL :=
      if ref.Path = [] ∧ !ref.ForceQuery ∧ ref.RawQuery = [] then
        if ref.Fragment = [] then
          { url with RawQuery := u.RawQuery, Fragment := u.Fragment,
                     RawFragment := u.RawFragment }
        else { url with RawQuery := u.RawQuery }
      else url
    if ref.Path = [] ∧ u.Opaque ≠ [] then
      { url with Opaque := u.Opaque, User := none, Host := [], Path := [] }
    else
      URL.setPathIgnoringError { url with Host := u.Host, User := u.User }
        (resolvePath u.EscapedPath ref.EscapedPath)

/-! ## Requests, the store of header maps and the collaborators -/

/-- The header maps allocated so far; a reference to a map is its index. -/
structure Store where
  headers : List Header
deriving DecidableEq, Repr

/-- The map a reference points to (the empty map for a dangling reference). -/
def Store.read (st : Store) (ref : Nat) : Header := st.headers.getD ref []

/-- Mutation of the map behind a reference. -/
def Store.write (st : Store) (ref : Nat) (h : Header) : Store := ⟨st.headers.set ref h⟩

/-- Allocation of a new map: the new store and the reference to the map. -/
def Store.alloc (st : Store) (h : Header) : Store × Nat :=
  (⟨st.headers ++ [h]⟩, st.headers.length)

/-- Go `http.Request` as far as the handler reads and writes it; `Header` is a
reference to a header map in the store. -/
structure Request where
  Method : GoString
  URL : URL
  Header : Nat
  Body : GoString
  Host : GoString
deriving DecidableEq, Repr

/-- What the transport receives when `httpClient.Do(proxyReq)` is called: the request
with the contents of its header map at that moment. -/
structure Outbound where
  Method : GoString
  URL : URL
  Header : Header
  Body : GoString
  Host : GoString
deriving DecidableEq, Repr

/-- Go `oauth2.Token` as far as the handler reads it. -/
structure Token where
  AccessToken : GoString
deriving DecidableEq, Repr

/-- The package-level state of `main.go` and the behaviour of its two external
collaborators during one request. -/
structure Env where
  /-- The variable `upstreamURL`, parsed once at startup. -/
  upstreamURL : URL
  /-- What `tokenSource.Token()` returns when it is called for this request. -/
  tokenSource : Except GoString Token
  /-- What `httpClient.Do` returns for the request it is given. -/
  httpClient : Outbound → Except GoString Response

/-- The calls the handler makes to its collaborators. -/
inductive Event
  /-- A call of `tokenSource.Token()`. -/
  | token
  /-- A call of `httpClient.Do` with the given request. -/
  | dispatch (req : Outbound)
deriving DecidableEq, Repr

/-- What one run of the handler leaves behind. -/
structure Outcome where
  store : Store
  w : ResponseWriter
  events : List Event
deriving DecidableEq, Repr

/-- Go `httpguts.IsTokenRune`. -/
def isTokenRune (r : Char) : Bool :=
  r.toNat < 128 &&
    (('0' ≤ r ∧ r ≤ '9') || ('a' ≤ r ∧ r ≤ 'z') || ('A' ≤ r ∧ r ≤ 'Z') ||
      "!#$%&'*+-.^_`|~".toList.contains r)

/-- Go `http.validMethod`. -/
def validMethod (method : GoString) : Bool := method.length > 0 && method.all isTokenRune

/-- Go `http.hasPort`: a colon after the last closing bracket. -/
def hasPort (s : GoString) : Bool :=
  match lastIndexByte s ':', lastIndexByte s ']' with
  | some i, some j => i > j
  | some _, none => true
  | none, _ => false

/-- Go `http.removeEmptyPort`. -/
def removeEmptyPort (host : GoString) : GoString :=
  if hasPort host ∧ hasSuffixByte host ':' then host.take (host.length - 1) else host

/-- Go `http.NewRequestWithContext` (the context is not modelled): `none` is the
error; on success the new request owns a freshly made, empty header map. -/
def NewRequestWithContext (st : Store) (method url body : GoString) :
    Option (Store × Request) :=
  let method := if method = [] then "GET".toList else method
  if !validMethod method then none
  else
    match Parse url with
    | none => none
    | some u =>
      let u := { u with Host := removeEmptyPort u.Host }
      let a := st.alloc []
      some (a.1, { Method := method, URL := u, Header := a.2, Body := body, Host := u.Host })

/-- The request as the transport sees it. -/
def Request.sent (st : Store) (req : Request) : Outbound :=
  { Method := req.Method, URL := req.URL, Header := st.read req.Header,
    Body := req.Body, Host := req.Host }

/-! ## `handleProxyRequest` -/

/-- `handleProxyRequest` of `main.go`. -/
def handleProxyRequest (env : Env) (st : Store) (w : ResponseWriter) (r : Request) : Outcome :=
  -- 1. Construct the destination URL
  let destinationURL := env.upstreamURL.ResolveReference r.URL
  -- 2. Create the forwarded request
  match NewRequestWithContext st r.Method destinationURL.String r.Body with
  | none =>
    { store := st, w := httpError w "Internal Server Error".toList 500, events := [] }
  | some (st1, proxyReq) =>
    -- 3. Copy headers and add the Authorization token
    let a := st1.alloc (st1.read r.Header).Clone
    let st2 := a.1
    let proxyReq := { proxyReq with Header := a.2 }
    match env.tokenSource with
    | .error _ =>
      { store := st2, w := httpError w "Could not generate authentication token.".toList 500,
        events := [Event.token] }
    | .ok token =>
      let st3 := st2.write proxyReq.Header
        ((st2.read proxyReq.Header).Set "Authorization".toList
          ("Bearer ".toList ++ token.AccessToken))
      let proxyReq := { proxyReq with Host := destinationURL.Host }
      -- 4. Send the request to the upstream server
      match env.httpClient (proxyReq.sent st3) with
      | .error _ =>
        { store := st3, w := httpError w "Bad Gateway".toList 502,
          events := [Event.token, Event.dispatch (proxyReq.sent st3)] }
      | .ok resp =>
        -- 5. Copy the response back to the original client
        { store := st3, w := copyResponse w resp,
          events := [Event.token, Event.dispatch (proxyReq.sent st3)] }

/-! ## Auxiliary definitions for the statements -/

/-- Every segment preceded by a slash, concatenated. -/
def joinSlash : List GoString → GoString
  | [] => []
  | s :: ss => '/' :: s ++ joinSlash ss

/-- The segment is neither `.` nor `..`. -/
def NotDot (s : GoString) : Prop := s ≠ ".".toList ∧ s ≠ "..".toList

instance (s : GoString) : Decidable (NotDot s) := by
  unfold NotDot
  exact inferInstance

/-- The path has no segment `.` or `..`. -/
def NoDotSegments (p : GoString) : Prop := ∀ s ∈ splitSlash p, NotDot s

instance (p : GoString) : Decidable (NoDotSegments p) := by
  unfold NoDotSegments
  exact inferInstance

/-- The store after the handler has cloned the inbound headers and set Authorization
in the clone. -/
def storeAfterSet (st : Store) (r : Request) (tok : Token) : Store :=
  let a := (st.alloc []).1.alloc ((st.alloc []).1.read r.Header).Clone
  a.1.write a.2 ((a.1.read a.2).Set "Authorization".toList ("Bearer ".toList ++ tok.AccessToken))

/-- The request the handler passes to `httpClient.Do`, given the request that
`NewRequestWithContext` built and the token. -/
def outboundOf (env : Env) (st : Store) (r : Request) (req : Request) (tok : Token) : Outbound :=
  Request.sent (storeAfterSet st r tok)
    { req with Header := ((st.alloc []).1.alloc ((st.alloc []).1.read r.Header).Clone).2,
               Host := (env.upstreamURL.ResolveReference r.URL).Host }

/-! ## Concrete inputs -/

instance (h : Header) : Decidable h.WF := by
  unfold Header.WF
  exact inferInstance

instance (s : GoString) : Decidable (IsByteString s) := by
  unfold IsByteString
  exact inferInstance

/-- The Upstream Target `https://api.internal.example` as `url.Parse` returns it. -/
def upstreamExample : URL :=
  { Scheme := "https".toList, Host := "api.internal.example".toList }

/-- An upstream response with three managed headers in mixed spelling, a plain
header and a header with two values. -/
def responseExample : Response :=
  { StatusCode := 200,
    Header := [("Content-Length".toList, ["42".toList]),
               ("X-Custom".toList, ["foo".toList]),
               ("Set-Cookie".toList, ["a=1".toList, "b=2".toList]),
               ("connection".toList, ["close".toList]),
               ("TRANSFER-encoding".toList, ["chunked".toList])],
    Body := "hello".toList }

/-- An upstream response whose header map is as the Go client delivers it. -/
def canonicalResponseExample : Response :=
  { StatusCode := 200,
    Header := [("Content-Length".toList, ["42".toList]),
               ("X-Custom".toList, ["foo".toList]),
               ("Set-Cookie".toList, ["a=1".toList, "b=2".toList])],
    Body := "hello".toList }

/-- A store with one header map, that of the inbound request: it carries an
Authorization value of the caller's own. -/
def storeExample : Store :=
  ⟨[[("Authorization".toList, ["Basic Y2FsbGVy".toList]),
     ("Accept".toList, ["text/html".toList, "*/*".toList])]]⟩

/-- The inbound request `GET /v1/items?id=5` with a Host of the caller's choosing. -/
def requestExample : Request :=
  { Method := "GET".toList,
    URL := { Path := "/v1/items".toList, RawQuery := "id=5".toList },
    Header := 0, Body := [], Host := "proxy.example".toList }

/-- The token provider succeeds and the upstream answers. -/
def envExample : Env :=
  { upstreamURL := upstreamExample,
    tokenSource := .ok ⟨"tok".toList⟩,
    httpClient := fun _ => .ok canonicalResponseExample }

/-- The token provider fails. -/
def envTokenError : Env :=
  { upstreamURL := upstreamExample,
    tokenSource := .error "metadata server unreachable".toList,
    httpClient := fun _ => .ok canonicalResponseExample }

/-- The token provider succeeds and the transport fails. -/
def envTransportError : Env :=
  { upstreamURL := upstreamExample,
    tokenSource := .ok ⟨"tok".toList⟩,
    httpClient := fun _ => .error "dial tcp: connection refused".toList }

/-- The request that the handler dispatches for `requestExample`. -/
def outboundExample : Outbound :=
  { Method := "GET".toList,
    URL := { Scheme := "https".toList, Host := "api.internal.example".toList,
             Path := "/v1/items".toList, RawQuery := "id=5".toList },
    Header := [("Authorization".toList, ["Bearer tok".toList]),
               ("Accept".toList, ["text/html".toList, "*/*".toList])],
    Body := [], Host := "api.internal.example".toList }

/-- The inbound request `GET /?#%zz`: the query holds a number sign followed by a
malformed percent escape. -/
def requestBadFragment : Request :=
  { Method := "GET".toList,
    URL := { Path := "/".toList, RawQuery := "#%zz".toList },
    Header := 0, Body := [], Host := "proxy.example".toList }

/-- The inbound request `GET http://attacker.example/x`, a request target in absolute
form. -/
def requestAbsoluteForm : Request :=
  { Method := "GET".toList,
    URL := { Scheme := "http".toList, Host := "attacker.example".toList, Path := "/x".toList },
    Header := 0, Body := [], Host := "attacker.example".toList }

/-- The inbound request `CONNECT /a/../b`, which the server's mux passes on without
cleaning the path. -/
def requestDotSegments : Request :=
  { Method := "CONNECT".toList,
    URL := { Path := "/a/../b".toList },
    Header := 0, Body := [], Host := "proxy.example".toList }

/-- The inbound request `GET /p?a#frag`: `url.ParseRequestURI` splits off no fragment,
so the number sign and what follows it belong to the query. -/
def requestNumberSign : Request :=
  { Method := "GET".toList,
    URL := { Path := "/p".toList, RawQuery := "a#frag".toList },
    Header := 0, Body := [], Host := "proxy.example".toList }

/-- The inbound request `GET /a^b|c`: the path holds two bytes that Go escapes when it
prints a path, so `RawPath` keeps the path as it was sent. -/
def requestUnescapedBytes : Request :=
  { Method := "GET".toList,
    URL := { Path := "/a^b|c".toList, RawPath := "/a^b|c".toList },
    Header := 0, Body := [], Host := "proxy.example".toList }


/-! ## Bytes and letter case -/

theorem char_le_iff (a b : Char) : a ≤ b ↔ a.toNat ≤ b.toNat := by
  rw [Char.le_def]
  exact UInt32.le_def

theorem char_eq_iff (a b : Char) : a = b ↔ a.toNat = b.toNat := by
  constructor
  · intro h; rw [h]
  · intro h
    apply Char.ext
    exact UInt32.ext (by simpa [Char.toNat, UInt32.toNat] using h)

theorem toNat_ofNat_small (n : Nat) (h : n < 0xD800) : (Char.ofNat n).toNat = n := by
  have hv : n.isValidChar := Or.inl h
  simp only [Char.ofNat, hv, dif_pos, Char.ofNatAux, Char.toNat]
  simp [UInt32.toNat]

/-- The codes of the bytes that bound the digit and letter ranges. -/
theorem range_codes :
    Char.toNat '0' = 48 ∧ Char.toNat '9' = 57 ∧ Char.toNat 'a' = 97 ∧ Char.toNat 'z' = 122 ∧
      Char.toNat 'A' = 65 ∧ Char.toNat 'Z' = 90 :=
  ⟨rfl, rfl, rfl, rfl, rfl, rfl⟩

theorem lowerByte_toNat (c : Char) :
    (lowerByte c).toNat = if 65 ≤ c.toNat ∧ c.toNat ≤ 90 then c.toNat + 32 else c.toNat := by
  unfold lowerByte
  obtain ⟨-, -, -, -, hA, hZ⟩ := range_codes
  simp only [char_le_iff]
  rw [hA, hZ]
  split
  · rename_i h
    exact toNat_ofNat_small _ (by omega)
  · rfl

theorem upperByte_toNat (c : Char) :
    (upperByte c).toNat = if 97 ≤ c.toNat ∧ c.toNat ≤ 122 then c.toNat - 32 else c.toNat := by
  unfold upperByte
  obtain ⟨-, -, ha, hz, -, -⟩ := range_codes
  simp only [char_le_iff]
  rw [ha, hz]
  split
  · rename_i h
    exact toNat_ofNat_small _ (by omega)
  · rfl

theorem lowerByte_lowerByte (c : Char) : lowerByte (lowerByte c) = lowerByte c := by
  rw [char_eq_iff, lowerByte_toNat, lowerByte_toNat]
  split_ifs <;> omega

theorem lowerByte_upperByte (c : Char) : lowerByte (upperByte c) = lowerByte c := by
  rw [char_eq_iff, lowerByte_toNat, lowerByte_toNat, upperByte_toNat]
  split_ifs <;> omega

theorem upperByte_congr (c d : Char) (h : lowerByte c = lowerByte d) :
    upperByte c = upperByte d := by
  rw [char_eq_iff, lowerByte_toNat, lowerByte_toNat] at h
  rw [char_eq_iff, upperByte_toNat, upperByte_toNat]
  split_ifs at h ⊢ <;> omega

theorem lowerByte_ascii (c : Char) (h : (lowerByte c).toNat < 128) : c.toNat < 128 := by
  rw [lowerByte_toNat] at h
  split_ifs at h <;> omega

theorem validHeaderFieldByte_lowerByte (c : Char) :
    validHeaderFieldByte (lowerByte c) = validHeaderFieldByte c := by
  by_cases h : 65 ≤ c.toNat ∧ c.toNat ≤ 90
  · have h1 : (lowerByte c).toNat = c.toNat + 32 := by rw [lowerByte_toNat, if_pos h]
    obtain ⟨-, -, ha, hz, hA, hZ⟩ := range_codes
    have e1 : validHeaderFieldByte (lowerByte c) = true := by
      have : 'a' ≤ lowerByte c ∧ lowerByte c ≤ 'z' := by
        simp only [char_le_iff, ha, hz]; omega
      simp [validHeaderFieldByte, this]
    have e2 : validHeaderFieldByte c = true := by
      have : 'A' ≤ c ∧ c ≤ 'Z' := by
        simp only [char_le_iff, hA, hZ]; omega
      simp [validHeaderFieldByte, this]
    rw [e1, e2]
  · have : lowerByte c = c := by
      rw [char_eq_iff, lowerByte_toNat, if_neg h]
    rw [this]

theorem all_valid_asciiLower (s : GoString) :
    (asciiLower s).all validHeaderFieldByte = s.all validHeaderFieldByte := by
  induction s with
  | nil => rfl
  | cons c s ih =>
    simp only [asciiLower, List.map_cons, List.all_cons] at ih ⊢
    rw [validHeaderFieldByte_lowerByte, ih]

theorem asciiLower_canonicalLoop (upper : Bool) (s : GoString) :
    asciiLower (canonicalLoop upper s) = asciiLower s := by
  induction s generalizing upper with
  | nil => rfl
  | cons c s ih =>
    simp only [canonicalLoop, asciiLower, List.map_cons] at ih ⊢
    rw [ih]
    cases upper
    · simp [lowerByte_lowerByte]
    · simp [lowerByte_upperByte]

/-- Canonicalisation changes the case of ASCII letters only. -/
theorem asciiLower_canonical (s : GoString) :
    asciiLower (CanonicalMIMEHeaderKey s) = asciiLower s := by
  unfold CanonicalMIMEHeaderKey
  split
  · exact asciiLower_canonicalLoop true s
  · rfl

theorem canonicalLoop_congr (upper : Bool) (s t : GoString)
    (h : asciiLower s = asciiLower t) : canonicalLoop upper s = canonicalLoop upper t := by
  induction s generalizing upper t with
  | nil =>
    cases t with
    | nil => rfl
    | cons d t => simp [asciiLower] at h
  | cons c s ih =>
    cases t with
    | nil => simp [asciiLower] at h
    | cons d t =>
      simp only [asciiLower, List.map_cons, List.cons.injEq] at h
      have hc : (if upper then upperByte c else lowerByte c) =
          (if upper then upperByte d else lowerByte d) := by
        cases upper
        · simpa using h.1
        · simpa using upperByte_congr c d h.1
      simp only [canonicalLoop, hc]
      rw [ih _ t h.2]

/-- Two names that agree up to ASCII case and consist of token bytes have the same
canonical form. -/
theorem canonical_congr (s t : GoString) (h : asciiLower s = asciiLower t)
    (ht : t.all validHeaderFieldByte = true) :
    CanonicalMIMEHeaderKey s = CanonicalMIMEHeaderKey t := by
  have hs : s.all validHeaderFieldByte = true := by
    rw [← all_valid_asciiLower, h, all_valid_asciiLower, ht]
  unfold CanonicalMIMEHeaderKey
  rw [if_pos hs, if_pos ht]
  exact canonicalLoop_congr true s t h

theorem toLower_ascii (s : GoString) (h : ∀ c ∈ s, c.toNat < 128) :
    toLower s = asciiLower s := by
  induction s using toLower.induct with
  | case1 => rfl
  | case2 c => rfl
  | case3 c d hcd =>
    have := h c (by simp)
    omega
  | case4 c d hcd ih =>
    simp only [toLower, hcd, if_false]
    rfl
  | case5 c d e rest hcd ih =>
    have := h c (by simp)
    omega
  | case6 c d e rest h1 h2 ih =>
    have := h c (by simp)
    omega
  | case7 c d e rest h1 h2 ih =>
    simp only [toLower, h1, h2, if_false]
    rw [ih (fun x hx => h x (by simp at hx ⊢; exact Or.inr hx))]
    rfl

theorem asciiLower_ascii (s t : GoString) (h : asciiLower s = t)
    (ht : ∀ c ∈ t, c.toNat < 128) : ∀ c ∈ s, c.toNat < 128 := by
  intro c hc
  apply lowerByte_ascii
  apply ht
  rw [← h]
  exact List.mem_map_of_mem _ hc

/-- A name that is ASCII-case-insensitively equal to an ASCII constant is lowered to
that constant by `strings.ToLower`. -/
theorem toLower_of_asciiLower (s t : GoString) (h : asciiLower s = t)
    (ht : ∀ c ∈ t, c.toNat < 128) : toLower s = t := by
  rw [toLower_ascii s (asciiLower_ascii s t h ht), h]

/-! ## Header maps -/

namespace Header

theorem lookup_assign (h : Header) (key : GoString) (vv : List GoString) (k : GoString) :
    lookup (assign h key vv) k = if k = key then some vv else lookup h k := by
  induction h with
  | nil =>
    simp only [assign, lookup]
    by_cases hk : k = key
    · simp [hk]
    · have : ¬ key = k := fun e => hk e.symm
      simp [hk, this]
  | cons e rest ih =>
    obtain ⟨k0, old⟩ := e
    simp only [assign]
    by_cases h0 : k0 = key
    · simp only [h0, if_true, lookup]
      by_cases hk : k = key
      · simp [hk]
      · have : ¬ key = k := fun e => hk e.symm
        simp [hk, this]
    · simp only [h0, if_false, lookup, ih]
      by_cases hk : k = key
      · simp [hk, h0]
      · simp [hk]

theorem get_assign (h : Header) (key : GoString) (vv : List GoString) (k : GoString) :
    get (assign h key vv) k = if k = key then vv else get h k := by
  unfold get
  rw [lookup_assign]
  split <;> rfl

theorem keys_assign (h : Header) (key : GoString) (vv : List GoString) (k : GoString)
    (hk : k ∈ keys (assign h key vv)) : k ∈ keys h ∨ k = key := by
  induction h with
  | nil =>
    simp only [assign, keys, List.map_cons, List.map_nil, List.mem_singleton] at hk
    exact Or.inr hk
  | cons e rest ih =>
    obtain ⟨k0, old⟩ := e
    simp only [assign] at hk
    by_cases h0 : k0 = key
    · simp only [h0, if_true, keys, List.map_cons, List.mem_cons] at hk ⊢
      rcases hk with hk | hk
      · exact Or.inr hk
      · exact Or.inl (Or.inr hk)
    · simp only [h0, if_false, keys, List.map_cons, List.mem_cons] at hk ⊢
      rcases hk with hk | hk
      · exact Or.inl (Or.inl hk)
      · rcases ih hk with h1 | h1
        · exact Or.inl (Or.inr h1)
        · exact Or.inr h1

theorem mem_assign_nodup (h : Header) (key : GoString) (vv : List GoString)
    (hn : h.keys.Nodup) (k : GoString) (x : List GoString) (hm : (k, x) ∈ assign h key vv) :
    (k = key ∧ x = vv) ∨ (k ≠ key ∧ (k, x) ∈ h) := by
  induction h with
  | nil =>
    simp only [assign, List.mem_singleton, Prod.mk.injEq] at hm
    exact Or.inl hm
  | cons e rest ih =>
    obtain ⟨k0, old⟩ := e
    simp only [keys, List.map_cons, List.nodup_cons] at hn
    simp only [assign] at hm
    by_cases h0 : k0 = key
    · simp only [h0, if_true, List.mem_cons, Prod.mk.injEq] at hm
      rcases hm with hm | hm
      · exact Or.inl hm
      · right
        have hk : k ∈ rest.map Prod.fst := List.mem_map_of_mem Prod.fst hm
        refine ⟨?_, List.mem_cons_of_mem _ hm⟩
        intro e
        rw [e, ← h0] at hk
        exact hn.1 hk
    · simp only [h0, if_false, List.mem_cons, Prod.mk.injEq] at hm
      rcases hm with hm | hm
      · right
        refine ⟨by rw [hm.1]; exact h0, ?_⟩
        rw [hm.1, hm.2]
        exact List.mem_cons_self _ _
      · rcases ih hn.2 hm with h1 | h1
        · exact Or.inl h1
        · exact Or.inr ⟨h1.1, List.mem_cons_of_mem _ h1.2⟩

theorem Clone_eq (h : Header) : Clone h = h := by
  unfold Clone
  induction h with
  | nil => rfl
  | cons e rest ih => simp [ih]

theorem get_Add (h : Header) (key value k : GoString) :
    get (Add h key value) k =
      if k = CanonicalMIMEHeaderKey key then get h k ++ [value] else get h k := by
  unfold Add
  simp only [get_assign]
  split
  · rename_i hk; rw [hk]
  · rfl

theorem keys_Add (h : Header) (key value k : GoString) (hk : k ∈ keys (Add h key value)) :
    k ∈ keys h ∨ k = CanonicalMIMEHeaderKey key :=
  keys_assign h _ _ k hk

end Header

theorem get_addValues (h : Header) (key : GoString) (values : List GoString) (k : GoString) :
    (addValues h key values).get k =
      if k = CanonicalMIMEHeaderKey key then h.get k ++ values else h.get k := by
  induction values generalizing h with
  | nil =>
    simp only [addValues, List.foldl_nil, List.append_nil]
    split <;> rfl
  | cons v vs ih =>
    simp only [addValues, List.foldl_cons] at ih ⊢
    rw [ih, Header.get_Add]
    split
    · simp
    · rfl

theorem keys_addValues (h : Header) (key : GoString) (values : List GoString) (k : GoString)
    (hk : k ∈ (addValues h key values).keys) :
    k ∈ h.keys ∨ k = CanonicalMIMEHeaderKey key := by
  induction values generalizing h with
  | nil => exact Or.inl hk
  | cons v vs ih =>
    simp only [addValues, List.foldl_cons] at ih hk
    rcases ih _ hk with h1 | h1
    · exact Header.keys_Add h key v k h1
    · exact Or.inr h1

/-- Every key the header loop of `copyResponse` leaves in the caller's map was there
before or is the canonical form of an upstream key that passed the test. -/
theorem keys_copyHeaders (h entries : Header) (k : GoString)
    (hk : k ∈ (copyHeaders h entries).keys) :
    k ∈ h.keys ∨ ∃ e ∈ entries, isManagedHeader e.1 = false ∧ k = CanonicalMIMEHeaderKey e.1 := by
  induction entries generalizing h with
  | nil => exact Or.inl hk
  | cons e es ih =>
    simp only [copyHeaders, List.foldl_cons] at ih hk
    rcases ih _ hk with h1 | ⟨e1, he1, hm, hc⟩
    · by_cases hme : isManagedHeader e.1 = true
      · rw [if_pos hme] at h1
        exact Or.inl h1
      · rw [if_neg hme] at h1
        rcases keys_addValues _ _ _ _ h1 with h2 | h2
        · exact Or.inl h2
        · exact Or.inr ⟨e, List.mem_cons_self _ _, by simpa using hme, h2⟩
    · exact Or.inr ⟨e1, List.mem_cons_of_mem _ he1, hm, hc⟩

/-- The values the header loop of `copyResponse` leaves under a key, for an upstream
map with canonical keys, none of them twice. -/
theorem get_copyHeaders (h entries : Header) (hwf : entries.WF) (k : GoString) :
    (copyHeaders h entries).get k =
      if k ∈ entries.keys ∧ isManagedHeader k = false then h.get k ++ entries.get k
      else h.get k := by
  induction entries generalizing h with
  | nil => simp [copyHeaders, Header.keys]
  | cons e es ih =>
    obtain ⟨k0, vs⟩ := e
    have hn := hwf.1
    have hc := hwf.2
    simp only [Header.keys, List.map_cons, List.nodup_cons, List.mem_cons] at hn hc
    have hwf2 : Header.WF es := ⟨hn.2, fun x hx => hc x (Or.inr hx)⟩
    have hck : CanonicalMIMEHeaderKey k0 = k0 := hc k0 (Or.inl rfl)
    simp only [copyHeaders, List.foldl_cons] at ih ⊢
    rw [ih _ hwf2]
    simp only [Header.keys, List.map_cons, List.mem_cons, Header.get, Header.lookup]
    by_cases hk : k = k0
    · subst hk
      have hnot : ¬ k ∈ List.map Prod.fst es := hn.1
      simp only [Header.keys, hnot, false_and, if_false, true_or, true_and, if_true]
      by_cases hm : isManagedHeader k = true
      · simp [hm, Header.get]
      · have hm2 : isManagedHeader k = false := by simpa using hm
        simp only [hm, hm2, if_true, if_false]
        have := get_addValues h k vs k
        rw [hck] at this
        simpa [Header.get] using this
    · have hk2 : ¬ k0 = k := fun e => hk e.symm
      simp only [hk, hk2, false_or, if_false]
      have hstep : (if isManagedHeader k0 = true then h else addValues h k0 vs).get k = h.get k := by
        split
        · rfl
        · rw [get_addValues, hck, if_neg hk]
      simp only [Header.get] at hstep
      simp only [Header.keys, hstep]

theorem validHeaderFieldByte_ascii (c : Char) (h : validHeaderFieldByte c = true) :
    c.toNat < 128 := by
  obtain ⟨h0, h9, ha, hz, hA, hZ⟩ := range_codes
  simp only [validHeaderFieldByte, Bool.or_eq_true, decide_eq_true_eq, char_le_iff,
    h0, h9, ha, hz, hA, hZ, List.contains_eq_any_beq, List.any_eq_true, beq_iff_eq] at h
  rcases h with ((h | h) | h) | ⟨x, hx, hxc⟩
  · omega
  · omega
  · omega
  · subst hxc
    simp only [String.toList, List.mem_cons, List.mem_singleton] at hx
    rcases hx with hx | hx | hx | hx | hx | hx | hx | hx | hx | hx | hx | hx | hx | hx | hx | hx
    all_goals first | (subst hx; decide) | (simp at hx)

/-- Canonicalisation does not change what `strings.ToLower` makes of a name. -/
theorem toLower_canonical (s : GoString) :
    toLower (CanonicalMIMEHeaderKey s) = toLower s := by
  by_cases hs : s.all validHeaderFieldByte = true
  · have hc : (CanonicalMIMEHeaderKey s).all validHeaderFieldByte = true := by
      rw [← all_valid_asciiLower, asciiLower_canonical, all_valid_asciiLower, hs]
    have a1 : ∀ c ∈ s, c.toNat < 128 := fun c hc1 =>
      validHeaderFieldByte_ascii c (List.all_eq_true.mp hs c hc1)
    have a2 : ∀ c ∈ CanonicalMIMEHeaderKey s, c.toNat < 128 := fun c hc1 =>
      validHeaderFieldByte_ascii c (List.all_eq_true.mp hc c hc1)
    rw [toLower_ascii _ a1, toLower_ascii _ a2, asciiLower_canonical]
  · unfold CanonicalMIMEHeaderKey
    rw [if_neg hs]

theorem isManagedHeader_canonical (s : GoString) :
    isManagedHeader (CanonicalMIMEHeaderKey s) = isManagedHeader s := by
  unfold isManagedHeader
  rw [toLower_canonical]

/-- On a name that is ASCII-case-insensitively equal to one of the four managed names
the test of `copyResponse` succeeds. -/
theorem isManagedHeader_of_asciiLower (s : GoString)
    (h : asciiLower s = "content-encoding".toList ∨ asciiLower s = "content-length".toList ∨
      asciiLower s = "transfer-encoding".toList ∨ asciiLower s = "connection".toList) :
    isManagedHeader s = true := by
  unfold isManagedHeader
  rcases h with h | h | h | h
  · rw [toLower_of_asciiLower s _ h (by decide)]; decide
  · rw [toLower_of_asciiLower s _ h (by decide)]; decide
  · rw [toLower_of_asciiLower s _ h (by decide)]; decide
  · rw [toLower_of_asciiLower s _ h (by decide)]; decide

theorem copyResponse_header (w : ResponseWriter) (resp : Response) :
    (copyResponse w resp).header = copyHeaders w.header resp.Header := by
  unfold copyResponse ResponseWriter.Write ResponseWriter.WriteHeader
  cases w.status <;> rfl

/-- C4: after `copyResponse` on a caller response with no header yet, no header of the
caller response is named Content-Encoding, Content-Length, Transfer-Encoding or
Connection in any spelling of ASCII case, and none passes the test of `copyResponse`
itself (`strings.ToLower` of the name equal to one of the four), whatever names and
values the upstream response carried. -/
theorem copyResponse_excludes_managed (w : ResponseWriter) (resp : Response)
    (hw : w.header = []) :
    ∀ k ∈ (copyResponse w resp).header.keys,
      asciiLower k ≠ "content-encoding".toList ∧ asciiLower k ≠ "content-length".toList ∧
      asciiLower k ≠ "transfer-encoding".toList ∧ asciiLower k ≠ "connection".toList ∧
      isManagedHeader k = false := by
  intro k hk
  rw [copyResponse_header, hw] at hk
  rcases keys_copyHeaders [] resp.Header k hk with h1 | ⟨e, _, hm, hc⟩
  · simp [Header.keys] at h1
  · have hmk : isManagedHeader k = false := by rw [hc, isManagedHeader_canonical, hm]
    have hno : ¬ (asciiLower k = "content-encoding".toList ∨
        asciiLower k = "content-length".toList ∨
        asciiLower k = "transfer-encoding".toList ∨ asciiLower k = "connection".toList) := by
      intro h
      rw [isManagedHeader_of_asciiLower k h] at hmk
      exact Bool.noConfusion hmk
    refine ⟨fun h => hno (Or.inl h), fun h => hno (Or.inr (Or.inl h)),
      fun h => hno (Or.inr (Or.inr (Or.inl h))), fun h => hno (Or.inr (Or.inr (Or.inr h))), hmk⟩

/-- An ASCII name that differs, compared ASCII-case-insensitively, from each of the
four managed names does not pass the test of `copyResponse`: the test drops the four
names and nothing else. -/
theorem isManagedHeader_of_other_name (s : GoString) (hascii : ∀ c ∈ s, c.toNat < 128)
    (h1 : asciiLower s ≠ "content-encoding".toList)
    (h2 : asciiLower s ≠ "content-length".toList)
    (h3 : asciiLower s ≠ "transfer-encoding".toList)
    (h4 : asciiLower s ≠ "connection".toList) :
    isManagedHeader s = false := by
  unfold isManagedHeader
  rw [toLower_ascii s hascii]
  have e1 : (asciiLower s == "content-encoding".toList) = false := by simpa using h1
  have e2 : (asciiLower s == "content-length".toList) = false := by simpa using h2
  have e3 : (asciiLower s == "transfer-encoding".toList) = false := by simpa using h3
  have e4 : (asciiLower s == "connection".toList) = false := by simpa using h4
  rw [e1, e2, e3, e4]
  rfl

/-- C5: for an upstream response whose header map is well formed (canonical keys, as
the Go client delivers them) and a caller response with no header yet, every upstream
header name that consists of ASCII bytes (as HTTP field names do) and is none of
Content-Encoding, Content-Length, Transfer-Encoding and Connection, compared
ASCII-case-insensitively, is relayed under the same name with exactly the upstream
sequence of values: every value, none added, in the upstream order. -/
theorem copyResponse_relays_other_headers (w : ResponseWriter) (resp : Response)
    (hw : w.header = []) (hwf : resp.Header.WF) (k : GoString)
    (hk : k ∈ resp.Header.keys) (hascii : ∀ c ∈ k, c.toNat < 128)
    (h1 : asciiLower k ≠ "content-encoding".toList)
    (h2 : asciiLower k ≠ "content-length".toList)
    (h3 : asciiLower k ≠ "transfer-encoding".toList)
    (h4 : asciiLower k ≠ "connection".toList) :
    (copyResponse w resp).header.get k = resp.Header.get k := by
  have hm : isManagedHeader k = false := isManagedHeader_of_other_name k hascii h1 h2 h3 h4
  rw [copyResponse_header, hw, get_copyHeaders [] resp.Header hwf k]
  simp [hk, hm, Header.get, Header.lookup]

/-! ## The store and the handler -/

theorem Store.read_alloc_new (st : Store) (h : Header) :
    (st.alloc h).1.read (st.alloc h).2 = h := by
  simp [Store.alloc, Store.read, List.getD_eq_getElem?_getD]

theorem Store.read_alloc_old (st : Store) (h : Header) (ref : Nat)
    (hr : ref < st.headers.length) : (st.alloc h).1.read ref = st.read ref := by
  simp [Store.alloc, Store.read, List.getD_eq_getElem?_getD, List.getElem?_append_left hr]

theorem Store.read_alloc_empty (st : Store) (ref : Nat) :
    (st.alloc []).1.read ref = st.read ref := by
  by_cases hr : ref < st.headers.length
  · exact Store.read_alloc_old st [] ref hr
  · simp only [Store.alloc, Store.read, List.getD_eq_getElem?_getD]
    have h1 : st.headers[ref]? = none := List.getElem?_eq_none (by omega)
    rw [h1]
    by_cases h2 : ref = st.headers.length
    · subst h2
      simp
    · have h3 : (st.headers ++ [([] : Header)])[ref]? = none :=
        List.getElem?_eq_none (by simp; omega)
      rw [h3]

theorem Store.read_write_same (st : Store) (ref : Nat) (h : Header)
    (hr : ref < st.headers.length) : (st.write ref h).read ref = h := by
  simp [Store.write, Store.read, List.getD_eq_getElem?_getD, hr]

theorem Store.read_write_other (st : Store) (ref ref2 : Nat) (h : Header)
    (hne : ref2 ≠ ref) : (st.write ref h).read ref2 = st.read ref2 := by
  simp [Store.write, Store.read, List.getD_eq_getElem?_getD, List.getElem?_set_ne hne.symm]

theorem Store.alloc_length (st : Store) (h : Header) :
    (st.alloc h).1.headers.length = st.headers.length + 1 := by
  simp [Store.alloc]

theorem Store.alloc_ref (st : Store) (h : Header) : (st.alloc h).2 = st.headers.length := rfl

/-- What a successful `NewRequestWithContext` returns. -/
theorem NewRequestWithContext_some (st st1 : Store) (method url body : GoString)
    (req : Request) (h : NewRequestWithContext st method url body = some (st1, req)) :
    st1 = (st.alloc []).1 ∧ req.Header = st.headers.length ∧ req.Body = body ∧
      ∃ u, Parse url = some u ∧ req.URL = { u with Host := removeEmptyPort u.Host } := by
  unfold NewRequestWithContext at h
  simp only at h
  by_cases hv : (!validMethod (if method = [] then "GET".toList else method)) = true
  · rw [if_pos hv] at h
    exact Option.noConfusion h
  · rw [if_neg hv] at h
    cases hp : Parse url with
    | none =>
      rw [hp] at h
      exact Option.noConfusion h
    | some u =>
      rw [hp] at h
      simp only [Option.some.injEq, Prod.mk.injEq] at h
      obtain ⟨h1, h2⟩ := h
      subst h1
      subst h2
      exact ⟨rfl, rfl, rfl, u, rfl, rfl⟩

theorem handle_construction_error (env : Env) (st : Store) (w : ResponseWriter) (r : Request)
    (hnew : NewRequestWithContext st r.Method (env.upstreamURL.ResolveReference r.URL).String
      r.Body = none) :
    handleProxyRequest env st w r =
      { store := st, w := httpError w "Internal Server Error".toList 500, events := [] } := by
  unfold handleProxyRequest
  simp only [hnew]

theorem handle_token_error (env : Env) (st st1 : Store) (w : ResponseWriter) (r req : Request)
    (e : GoString)
    (hnew : NewRequestWithContext st r.Method (env.upstreamURL.ResolveReference r.URL).String
      r.Body = some (st1, req))
    (htok : env.tokenSource = .error e) :
    handleProxyRequest env st w r =
      { store := (st1.alloc (st1.read r.Header).Clone).1,
        w := httpError w "Could not generate authentication token.".toList 500,
        events := [Event.token] } := by
  unfold handleProxyRequest
  simp only [hnew, htok]

theorem handle_transport_error (env : Env) (st st1 : Store) (w : ResponseWriter)
    (r req : Request) (tok : Token) (e : GoString)
    (hnew : NewRequestWithContext st r.Method (env.upstreamURL.ResolveReference r.URL).String
      r.Body = some (st1, req))
    (htok : env.tokenSource = .ok tok)
    (hdo : env.httpClient (outboundOf env st r req tok) = .error e) :
    handleProxyRequest env st w r =
      { store := storeAfterSet st r tok, w := httpError w "Bad Gateway".toList 502,
        events := [Event.token, Event.dispatch (outboundOf env st r req tok)] } := by
  obtain ⟨hst1, -⟩ := NewRequestWithContext_some _ _ _ _ _ _ hnew
  subst hst1
  unfold outboundOf storeAfterSet at hdo
  simp only at hdo
  unfold handleProxyRequest outboundOf storeAfterSet
  simp only [hnew, htok, hdo]

theorem handle_relay (env : Env) (st st1 : Store) (w : ResponseWriter)
    (r req : Request) (tok : Token) (resp : Response)
    (hnew : NewRequestWithContext st r.Method (env.upstreamURL.ResolveReference r.URL).String
      r.Body = some (st1, req))
    (htok : env.tokenSource = .ok tok)
    (hdo : env.httpClient (outboundOf env st r req tok) = .ok resp) :
    handleProxyRequest env st w r =
      { store := storeAfterSet st r tok, w := copyResponse w resp,
        events := [Event.token, Event.dispatch (outboundOf env st r req tok)] } := by
  obtain ⟨hst1, -⟩ := NewRequestWithContext_some _ _ _ _ _ _ hnew
  subst hst1
  unfold outboundOf storeAfterSet at hdo
  simp only at hdo
  unfold handleProxyRequest outboundOf storeAfterSet
  simp only [hnew, htok, hdo]

theorem outboundOf_Header (env : Env) (st : Store) (r req : Request) (tok : Token) :
    (outboundOf env st r req tok).Header =
      (st.read r.Header).Set "Authorization".toList ("Bearer ".toList ++ tok.AccessToken) := by
  unfold outboundOf storeAfterSet
  simp only [Request.sent]
  rw [Store.read_write_same _ _ _ (by simp only [Store.alloc_ref, Store.alloc_length]; omega)]
  rw [Store.read_alloc_new, Header.Clone_eq, Store.read_alloc_empty]

theorem storeAfterSet_read (st : Store) (r : Request) (tok : Token)
    (hr : r.Header < st.headers.length) : (storeAfterSet st r tok).read r.Header = st.read r.Header := by
  unfold storeAfterSet
  simp only
  rw [Store.read_write_other _ _ _ _ (by simp only [Store.alloc_ref, Store.alloc_length]; omega)]
  rw [Store.read_alloc_old _ _ _ (by simp only [Store.alloc_length]; omega), Store.read_alloc_empty]

/-- The request that reaches the transport: a call of `httpClient.Do` is made only
after the request was built and the token obtained, it is the only call, and the
request is the one built from the clone of the inbound headers. -/
theorem dispatch_inv (env : Env) (st : Store) (w : ResponseWriter) (r : Request)
    (q : Outbound) (hq : Event.dispatch q ∈ (handleProxyRequest env st w r).events) :
    ∃ req tok,
      NewRequestWithContext st r.Method (env.upstreamURL.ResolveReference r.URL).String r.Body
        = some ((st.alloc []).1, req) ∧
      env.tokenSource = .ok tok ∧ q = outboundOf env st r req tok ∧
      (handleProxyRequest env st w r).events = [Event.token, Event.dispatch q] ∧
      (handleProxyRequest env st w r).store = storeAfterSet st r tok := by
  cases hnew : NewRequestWithContext st r.Method
      (env.upstreamURL.ResolveReference r.URL).String r.Body with
  | none =>
    rw [handle_construction_error env st w r hnew] at hq
    simp at hq
  | some p =>
    obtain ⟨st1, req⟩ := p
    obtain ⟨hst1, -⟩ := NewRequestWithContext_some _ _ _ _ _ _ hnew
    subst hst1
    cases htok : env.tokenSource with
    | error e =>
      rw [handle_token_error env st _ w r req e hnew htok] at hq
      simp at hq
    | ok tok =>
      cases hdo : env.httpClient (outboundOf env st r req tok) with
      | error e =>
        rw [handle_transport_error env st _ w r req tok e hnew htok hdo] at hq ⊢
        simp only [List.mem_cons, List.mem_singleton, Event.dispatch.injEq, List.mem_nil_iff,
          or_false, false_or] at hq
        rcases hq with hq | hq
        · exact Event.noConfusion hq
        · subst hq
          exact ⟨req, tok, rfl, rfl, rfl, rfl, rfl⟩
      | ok resp =>
        rw [handle_relay env st _ w r req tok resp hnew htok hdo] at hq ⊢
        simp only [List.mem_cons, List.mem_singleton, Event.dispatch.injEq, List.mem_nil_iff,
          or_false, false_or] at hq
        rcases hq with hq | hq
        · exact Event.noConfusion hq
        · subst hq
          exact ⟨req, tok, rfl, rfl, rfl, rfl, rfl⟩

/-! ## Resolution of paths -/

theorem joinSlash_splitSlash (s : GoString) : joinSlash (splitSlash s) = '/' :: s := by
  induction s with
  | nil => rfl
  | cons c s ih =>
    simp only [splitSlash]
    by_cases hc : c = '/'
    · simp [hc, joinSlash, ih]
    · simp only [hc, if_false]
      cases hs : splitSlash s with
      | nil =>
        rw [hs] at ih
        simp [joinSlash] at ih
      | cons seg segs =>
        rw [hs] at ih
        simp only [joinSlash, List.cons_append, List.cons.injEq, true_and] at ih ⊢
        exact ih

theorem resolveStep_clean (st : ResolveState) (elem : GoString) (h : NotDot elem)
    (hf : st.first = false) :
    resolveStep st elem = { dst := st.dst ++ '/' :: elem, first := false, elem := elem } := by
  unfold resolveStep
  rw [if_neg h.1, if_neg h.2, hf]
  simp

theorem foldl_resolveStep_clean (segs : List GoString) (h : ∀ s ∈ segs, NotDot s)
    (dst e : GoString) (he : NotDot e) :
    (segs.foldl resolveStep { dst := dst, first := false, elem := e }).dst
        = dst ++ joinSlash segs ∧
      NotDot (segs.foldl resolveStep { dst := dst, first := false, elem := e }).elem := by
  induction segs generalizing dst e with
  | nil => simpa [joinSlash] using he
  | cons s ss ih =>
    have hs : NotDot s := h s (List.mem_cons_self _ _)
    simp only [List.foldl_cons]
    rw [resolveStep_clean _ s hs rfl]
    have := ih (fun x hx => h x (List.mem_cons_of_mem _ hx)) (dst ++ '/' :: s) s hs
    simp only [joinSlash]
    refine ⟨?_, this.2⟩
    rw [this.1]
    simp

/-- `resolvePath` returns a rooted reference path without dot segments as it is. -/
theorem resolvePath_clean (base rest : GoString) (h : NoDotSegments ('/' :: rest)) :
    resolvePath base ('/' :: rest) = '/' :: rest := by
  unfold NoDotSegments at h
  have hsplit : splitSlash ('/' :: rest) = [] :: splitSlash rest := by simp [splitSlash]
  rw [hsplit] at h
  have h0 : NotDot ([] : GoString) := h [] (List.mem_cons_self _ _)
  have hrest : ∀ s ∈ splitSlash rest, NotDot s := fun s hs => h s (List.mem_cons_of_mem _ hs)
  have hstep : resolveStep { dst := ['/'], first := true, elem := [] } [] =
      { dst := ['/'], first := false, elem := [] } := by decide
  obtain ⟨hd, he⟩ := foldl_resolveStep_clean (splitSlash rest) hrest ['/'] [] h0
  have hne : ¬ ((List.foldl resolveStep { dst := ['/'], first := false, elem := [] }
        (splitSlash rest)).elem = ".".toList ∨
      (List.foldl resolveStep { dst := ['/'], first := false, elem := [] }
        (splitSlash rest)).elem = "..".toList) := fun hh => hh.elim he.1 he.2
  unfold resolvePath
  simp only [ne_eq, not_true_eq_false, if_false]
  rw [if_neg (List.cons_ne_nil _ _)]
  simp only [hsplit, List.foldl_cons, hstep]
  rw [if_neg hne, hd, joinSlash_splitSlash]
  simp

/-! ## Escaping of paths -/

theorem hex_digit (k : Nat) (hk : k < 16) :
    ishex (upperhex k) = true ∧ unhex (upperhex k) = k := by
  revert k
  decide

theorem unescape_escape_path (s : GoString) (hs : IsByteString s) :
    unescape (escape s encodePath) encodePath = some s := by
  induction s with
  | nil => rfl
  | cons c s ih =>
    have hc : c.toNat < 256 := hs c (List.mem_cons_self _ _)
    have ih2 := ih (fun x hx => hs x (List.mem_cons_of_mem _ hx))
    simp only [escape]
    rw [if_neg (fun h => Encoding.noConfusion h.2)]
    by_cases he : shouldEscape c encodePath = true
    · rw [if_pos he]
      obtain ⟨x1, x2⟩ := hex_digit (c.toNat / 16) (by omega)
      obtain ⟨y1, y2⟩ := hex_digit (c.toNat % 16) (by omega)
      simp only [unescape, if_true, x1, y1, x2, y2, ih2]
      have : c.toNat / 16 * 16 + c.toNat % 16 = c.toNat := by omega
      simp [this]
    · rw [if_neg he]
      have h1 : c ≠ '%' := by
        intro hh; subst hh; exact he (by decide)
      rw [unescape.eq_def]
      simp only [h1, if_false, ih2]
      by_cases h2 : c = '+'
      · subst h2; simp
      · simp [h2]

theorem unescape_path_head (rest x : GoString)
    (h : unescape ('/' :: rest) encodePath = some x) : x.head? = some '/' := by
  rw [unescape.eq_def] at h
  simp only at h
  rw [if_neg (by decide), if_neg (by decide), if_neg (by simp)] at h
  cases hr : unescape rest encodePath with
  | none => rw [hr] at h; simp at h
  | some y =>
    rw [hr] at h
    simp only [Option.map_some', Option.some.injEq] at h
    rw [← h]
    rfl

/-- The escaped path of a URL is validly escaped and unescapes to its `Path`. -/
theorem unescape_EscapedPath (u : URL) (hb : IsByteString u.Path)
    (hstar : u.Path ≠ "*".toList) :
    unescape u.EscapedPath encodePath = some u.Path ∧
      (u.EscapedPath = escape u.Path encodePath ∨
        (u.EscapedPath ≠ [] ∧ validEncoded u.EscapedPath encodePath = true)) := by
  unfold URL.EscapedPath
  by_cases h : u.RawPath ≠ [] ∧ validEncoded u.RawPath encodePath = true ∧
      unescape u.RawPath encodePath = some u.Path
  · rw [if_pos h]
    exact ⟨h.2.2, Or.inr ⟨h.1, h.2.1⟩⟩
  · rw [if_neg h, if_neg hstar]
    exact ⟨unescape_escape_path _ hb, Or.inl rfl⟩

/-- Setting a validly escaped rooted path and reading the escaped path back. -/
theorem setPath_EscapedPath (u : URL) (rest x : GoString)
    (h1 : unescape ('/' :: rest) encodePath = some x)
    (h2 : '/' :: rest = escape x encodePath ∨ validEncoded ('/' :: rest) encodePath = true) :
    (u.setPathIgnoringError ('/' :: rest)).Path = x ∧
      (u.setPathIgnoringError ('/' :: rest)).EscapedPath = '/' :: rest ∧
      (u.setPathIgnoringError ('/' :: rest)).RawQuery = u.RawQuery ∧
      (u.setPathIgnoringError ('/' :: rest)).Host = u.Host ∧
      (u.setPathIgnoringError ('/' :: rest)).Scheme = u.Scheme := by
  have hx : x ≠ "*".toList := by
    intro hh
    have := unescape_path_head rest x h1
    rw [hh] at this
    exact absurd this (by decide)
  refine ⟨by simp [URL.setPathIgnoringError, URL.setPath, h1], ?_,
    by simp [URL.setPathIgnoringError, URL.setPath, h1],
    by simp [URL.setPathIgnoringError, URL.setPath, h1],
    by simp [URL.setPathIgnoringError, URL.setPath, h1]⟩
  unfold URL.setPathIgnoringError URL.setPath
  simp only [h1, Option.getD_some]
  unfold URL.EscapedPath
  simp only
  by_cases he : '/' :: rest = escape x encodePath
  · rw [if_pos he]
    simp only [ne_eq, not_true_eq_false, false_and, if_false]
    rw [if_neg hx, ← he]
  · rw [if_neg he]
    have hv : validEncoded ('/' :: rest) encodePath = true := by
      rcases h2 with h2 | h2
      · exact absurd h2 he
      · exact h2
    rw [if_pos ⟨by simp, hv, h1⟩]

theorem resolvePath_nil_ref (rest : GoString) :
    resolvePath ('/' :: rest) [] = resolvePath [] ('/' :: rest) := by
  unfold resolvePath
  simp

theorem EscapedPath_rooted (ref : URL) (rest : GoString) (hb : IsByteString ref.Path)
    (hp : ref.EscapedPath = '/' :: rest) :
    ref.Path ≠ [] ∧ unescape ('/' :: rest) encodePath = some ref.Path ∧
      ('/' :: rest = escape ref.Path encodePath ∨ validEncoded ('/' :: rest) encodePath = true) := by
  have hstar : ref.Path ≠ "*".toList := by
    intro hs
    unfold URL.EscapedPath at hp
    by_cases h : ref.RawPath ≠ [] ∧ validEncoded ref.RawPath encodePath = true ∧
        unescape ref.RawPath encodePath = some ref.Path
    · rw [if_pos h] at hp
      have h3 := h.2.2
      rw [hp] at h3
      have := unescape_path_head rest _ h3
      rw [hs] at this
      exact absurd this (by decide)
    · rw [if_neg h, if_pos hs] at hp
      have h4 : ("*".toList).head? = some '/' := by rw [hp]; rfl
      exact absurd h4 (by decide)
  obtain ⟨h1, h2⟩ := unescape_EscapedPath ref hb hstar
  rw [hp] at h1 h2
  refine ⟨?_, h1, ?_⟩
  · intro hnil
    have := unescape_path_head rest _ h1
    rw [hnil] at this
    exact absurd this (by decide)
  · rcases h2 with h2 | h2
    · exact Or.inl h2
    · exact Or.inr h2.2

/-- The resolution step on a path without dot segments: for an inbound URL without
opaque part whose escaped path (as `EscapedPath` prints it) begins with a slash and
has no segment `.` or `..`, the URL that `ResolveReference` returns has the inbound
`Path`, the same `EscapedPath` and the inbound `RawQuery`.  This is a fact about
`ResolveReference` alone: it does not cover the printing of the inbound path by
`EscapedPath` nor the parsing of the printed destination by `NewRequestWithContext`. -/
theorem resolve_preserves_path_and_query (u ref : URL) (rest : GoString)
    (hbytes : IsByteString ref.Path) (hpathform : ref.Opaque = [])
    (hrooted : ref.EscapedPath = '/' :: rest) (hclean : NoDotSegments ref.EscapedPath) :
    (u.ResolveReference ref).Path = ref.Path ∧
      (u.ResolveReference ref).EscapedPath = ref.EscapedPath ∧
      (u.ResolveReference ref).RawQuery = ref.RawQuery := by
  obtain ⟨hne, h1, h2⟩ := EscapedPath_rooted ref rest hbytes hrooted
  rw [hrooted] at hclean
  unfold URL.ResolveReference
  simp only
  by_cases hA : ref.Scheme ≠ [] ∨ ref.Host ≠ [] ∨ ref.User ≠ none
  · rw [if_pos hA, hrooted, resolvePath_nil_ref, resolvePath_clean [] rest hclean]
    obtain ⟨e1, e2, e3, -, -⟩ := setPath_EscapedPath
      (if ref.Scheme = [] then { ref with Scheme := u.Scheme } else ref) rest ref.Path h1 h2
    refine ⟨e1, e2, ?_⟩
    rw [e3]
    split <;> rfl
  · rw [if_neg hA, if_neg (by simpa using hpathform)]
    have hc1 : ¬ (ref.Path = [] ∧ (!ref.ForceQuery) = true ∧ ref.RawQuery = []) :=
      fun h => hne h.1
    have hc2 : ¬ (ref.Path = [] ∧ u.Opaque ≠ []) := fun h => hne h.1
    rw [if_neg hc1, if_neg hc2, hrooted, resolvePath_clean _ rest hclean]
    obtain ⟨e1, e2, e3, -, -⟩ := setPath_EscapedPath
      { (if ref.Scheme = [] then { ref with Scheme := u.Scheme } else ref) with
        Host := u.Host, User := u.User } rest ref.Path h1 h2
    refine ⟨e1, e2, ?_⟩
    rw [e3]
    split <;> rfl

theorem setPathIgnoringError_frame (u : URL) (p : GoString) :
    (u.setPathIgnoringError p).Scheme = u.Scheme ∧ (u.setPathIgnoringError p).Host = u.Host ∧
      (u.setPathIgnoringError p).RawQuery = u.RawQuery := by
  unfold URL.setPathIgnoringError URL.setPath
  cases unescape p encodePath <;> exact ⟨rfl, rfl, rfl⟩

/-- The path the code takes for a request target in origin form (no scheme, host,
userinfo or opaque part, a non-empty path): the destination has the scheme and the
host of the Upstream Target. -/
theorem origin_form_destination (u ref : URL) (hs : ref.Scheme = []) (hh : ref.Host = [])
    (hu : ref.User = none) (ho : ref.Opaque = []) (hp : ref.Path ≠ []) :
    (u.ResolveReference ref).Scheme = u.Scheme ∧ (u.ResolveReference ref).Host = u.Host := by
  unfold URL.ResolveReference
  simp only
  have hA : ¬ (ref.Scheme ≠ [] ∨ ref.Host ≠ [] ∨ ref.User ≠ none) := by
    simp [hs, hh, hu]
  have hc1 : ¬ (ref.Path = [] ∧ (!ref.ForceQuery) = true ∧ ref.RawQuery = []) :=
    fun h => hp h.1
  have hc2 : ¬ (ref.Path = [] ∧ u.Opaque ≠ []) := fun h => hp h.1
  rw [if_neg hA, if_neg (by simpa using ho), if_neg hc1, if_neg hc2, if_pos hs]
  obtain ⟨e1, e2, -⟩ := setPathIgnoringError_frame
    { ({ ref with Scheme := u.Scheme } : URL) with Host := u.Host, User := u.User }
    (resolvePath u.EscapedPath ref.EscapedPath)
  exact ⟨e1, e2⟩

/-! ## The claims -/

theorem httpError_status (w : ResponseWriter) (msg : GoString) (code : Nat)
    (hw : w.status = none) : (httpError w msg code).status = some code := by
  simp [httpError, ResponseWriter.Write, ResponseWriter.WriteHeader, hw]

theorem canonical_authorization :
    CanonicalMIMEHeaderKey "Authorization".toList = "Authorization".toList := by decide

/-- A name that is ASCII-case-insensitively equal to Authorization has the canonical
form `Authorization`. -/
theorem canonical_of_asciiLower_authorization (k : GoString)
    (h : asciiLower k = "authorization".toList) :
    CanonicalMIMEHeaderKey k = "Authorization".toList := by
  have h2 : asciiLower k = asciiLower "authorization".toList := by rw [h]; decide
  rw [canonical_congr k "authorization".toList h2 (by decide)]
  decide

/-- C1: the request handed to the transport has exactly one Authorization value, the
string `Bearer ` followed by the token the provider returned; and when the inbound
header map is well formed (canonical keys, as the Go server builds it) every entry of
the outbound map whose name is Authorization in any ASCII case is that one entry, so
no inbound Authorization value reaches upstream. -/
theorem handleProxyRequest_sets_bearer (env : Env) (st : Store) (w : ResponseWriter)
    (r : Request) (tok : Token) (q : Outbound)
    (htok : env.tokenSource = .ok tok)
    (hq : Event.dispatch q ∈ (handleProxyRequest env st w r).events) :
    q.Header.get "Authorization".toList = ["Bearer ".toList ++ tok.AccessToken] ∧
      ((st.read r.Header).WF →
        ∀ k vv, (k, vv) ∈ q.Header → asciiLower k = "authorization".toList →
          k = "Authorization".toList ∧ vv = ["Bearer ".toList ++ tok.AccessToken]) := by
  obtain ⟨req, tok2, -, htok2, hqeq, -, -⟩ := dispatch_inv env st w r q hq
  rw [htok] at htok2
  cases htok2
  have hh := outboundOf_Header env st r req tok
  rw [← hqeq] at hh
  rw [hh]
  unfold Header.Set
  rw [canonical_authorization]
  constructor
  · rw [Header.get_assign, if_pos rfl]
  · intro hwf k vv hmem hk
    rcases Header.mem_assign_nodup _ _ _ hwf.1 k vv hmem with h1 | h1
    · exact h1
    · exfalso
      have hkey : k ∈ (st.read r.Header).keys := List.mem_map_of_mem Prod.fst h1.2
      have hcanon := hwf.2 k hkey
      rw [canonical_of_asciiLower_authorization k hk] at hcanon
      exact h1.1 hcanon.symm

/-- C6: when the token provider returns an error the caller is answered with status
500 and `httpClient.Do` is not called. -/
theorem token_error_is_not_forwarded (env : Env) (st : Store) (w : ResponseWriter)
    (r : Request) (e : GoString) (hw : w.status = none)
    (htok : env.tokenSource = .error e) :
    (handleProxyRequest env st w r).w.status = some 500 ∧
      ∀ q, Event.dispatch q ∉ (handleProxyRequest env st w r).events := by
  cases hnew : NewRequestWithContext st r.Method
      (env.upstreamURL.ResolveReference r.URL).String r.Body with
  | none =>
    rw [handle_construction_error env st w r hnew]
    exact ⟨httpError_status w _ 500 hw, fun q hq => by simp at hq⟩
  | some p =>
    obtain ⟨st1, req⟩ := p
    rw [handle_token_error env st st1 w r req e hnew htok]
    exact ⟨httpError_status w _ 500 hw, fun q hq => by simp at hq⟩

/-- C7: when the request was built, the token obtained and `httpClient.Do` returned an
error, the caller gets status 502 and exactly what `http.Error` writes for "Bad
Gateway" (nothing of an upstream response), and the handler's calls were one call of
the token provider and one call of the transport. -/
theorem transport_error_is_bad_gateway (env : Env) (st : Store) (w : ResponseWriter)
    (r : Request) (q : Outbound) (e : GoString) (hw : w.status = none)
    (hq : Event.dispatch q ∈ (handleProxyRequest env st w r).events)
    (hdo : env.httpClient q = .error e) :
    (handleProxyRequest env st w r).w.status = some 502 ∧
      (handleProxyRequest env st w r).w = httpError w "Bad Gateway".toList 502 ∧
      (handleProxyRequest env st w r).events = [Event.token, Event.dispatch q] := by
  obtain ⟨req, tok, hnew, htok, hqeq, -, -⟩ := dispatch_inv env st w r q hq
  subst hqeq
  rw [handle_transport_error env st _ w r req tok e hnew htok hdo]
  exact ⟨httpError_status w _ 502 hw, rfl, rfl⟩

/-- C8: the Host of every request handed to the transport is the host of the resolved
destination URL, whatever Host the inbound request carried; and for the inbound
request GET /v1/items?id=5 with the Upstream Target https://api.internal.example the
destination is https://api.internal.example/v1/items?id=5 and the request handed to
the transport has the Host api.internal.example. -/
theorem outbound_host_is_destination_host :
    (∀ (env : Env) (st : Store) (w : ResponseWriter) (r : Request) (q : Outbound),
      Event.dispatch q ∈ (handleProxyRequest env st w r).events →
        q.Host = (env.upstreamURL.ResolveReference r.URL).Host) ∧
    Parse "https://api.internal.example".toList = some upstreamExample ∧
    ParseRequestURI "/v1/items?id=5".toList = some requestExample.URL ∧
    (upstreamExample.ResolveReference requestExample.URL).String
      = "https://api.internal.example/v1/items?id=5".toList ∧
    (handleProxyRequest envExample storeExample ResponseWriter.fresh requestExample).events
      = [Event.token, Event.dispatch outboundExample] ∧
    outboundExample.Host = "api.internal.example".toList ∧
    outboundExample.URL.String = "https://api.internal.example/v1/items?id=5".toList := by
  refine ⟨?_, by decide, by decide, by decide, by decide, by decide, by decide⟩
  intro env st w r q hq
  obtain ⟨req, tok, -, -, hqeq, -, -⟩ := dispatch_inv env st w r q hq
  rw [hqeq]
  rfl

/-- C9: the header map of the request handed to the transport is the inbound header
map with the one binding of Authorization overlaid: every other name has the inbound
values in the inbound order, no other name is bound, and the inbound request's own
header map is the same after the handler has run. -/
theorem outbound_headers_overlay_authorization (env : Env) (st : Store)
    (w : ResponseWriter) (r : Request) (tok : Token) (q : Outbound)
    (hr : r.Header < st.headers.length)
    (htok : env.tokenSource = .ok tok)
    (hq : Event.dispatch q ∈ (handleProxyRequest env st w r).events) :
    (∀ k, q.Header.lookup k =
        if k = "Authorization".toList then some ["Bearer ".toList ++ tok.AccessToken]
        else (st.read r.Header).lookup k) ∧
      (handleProxyRequest env st w r).store.read r.Header = st.read r.Header := by
  obtain ⟨req, tok2, -, htok2, hqeq, -, hstore⟩ := dispatch_inv env st w r q hq
  rw [htok] at htok2
  cases htok2
  constructor
  · intro k
    have hh := outboundOf_Header env st r req tok
    rw [← hqeq] at hh
    rw [hh]
    unfold Header.Set
    rw [canonical_authorization, Header.lookup_assign]
  · rw [hstore]
    exact storeAfterSet_read st r tok hr

/-- C10 (amended): when the outbound request cannot be built from the resolved
destination, the caller is answered with status 500 and what `http.Error` writes for
"Internal Server Error"; the token provider is not asked and nothing is sent
upstream. -/
theorem construction_error_is_internal_server_error (env : Env) (st : Store)
    (w : ResponseWriter) (r : Request) (hw : w.status = none)
    (hnew : NewRequestWithContext st r.Method
      (env.upstreamURL.ResolveReference r.URL).String r.Body = none) :
    (handleProxyRequest env st w r).w.status = some 500 ∧
      (handleProxyRequest env st w r).w = httpError w "Internal Server Error".toList 500 ∧
      (handleProxyRequest env st w r).events = [] := by
  rw [handle_construction_error env st w r hnew]
  exact ⟨httpError_status w _ 500 hw, rfl, rfl⟩

/-! ## Witnesses and counterexamples -/

/-- Witness for C1: the request dispatched for `requestExample`, whose inbound headers
carry `Authorization: Basic ...`, has the single value `Bearer tok`. -/
theorem handleProxyRequest_sets_bearer_witness :
    envExample.tokenSource = .ok ⟨"tok".toList⟩ ∧
    Event.dispatch outboundExample ∈
      (handleProxyRequest envExample storeExample ResponseWriter.fresh requestExample).events ∧
    (storeExample.read requestExample.Header).get "Authorization".toList
      = ["Basic Y2FsbGVy".toList] ∧
    outboundExample.Header.get "Authorization".toList = ["Bearer tok".toList] ∧
    (("Authorization".toList, ["Bearer tok".toList]) ∈ outboundExample.Header →
      "Authorization".toList = "Authorization".toList ∧
        ["Bearer tok".toList] = ["Bearer ".toList ++ "tok".toList]) :=
  ⟨rfl, by decide, by decide,
    (handleProxyRequest_sets_bearer envExample storeExample ResponseWriter.fresh requestExample
      ⟨"tok".toList⟩ outboundExample rfl (by decide)).1,
    fun hm =>
      (handleProxyRequest_sets_bearer envExample storeExample ResponseWriter.fresh
        requestExample ⟨"tok".toList⟩ outboundExample rfl (by decide)).2 (by decide)
        "Authorization".toList ["Bearer tok".toList] hm (by decide)⟩

/-- C2 (the code at the failing input): for the inbound request
`GET http://attacker.example/x`, a request target in absolute form as
`url.ParseRequestURI` parses it, with the Upstream Target
https://api.internal.example, the handler resolves the destination
http://attacker.example/x and hands the transport a request to that host over that
scheme, with the bearer token attached: neither scheme nor host is the Upstream
Target's. -/
theorem absolute_form_request_leaves_upstream :
    ParseRequestURI "http://attacker.example/x".toList = some requestAbsoluteForm.URL ∧
    (upstreamExample.ResolveReference requestAbsoluteForm.URL).String
      = "http://attacker.example/x".toList ∧
    (handleProxyRequest envExample storeExample ResponseWriter.fresh requestAbsoluteForm).events
      = [Event.token, Event.dispatch
          { Method := "GET".toList,
            URL := { Scheme := "http".toList, Host := "attacker.example".toList,
                     Path := "/x".toList },
            Header := [("Authorization".toList, ["Bearer tok".toList]),
                       ("Accept".toList, ["text/html".toList, "*/*".toList])],
            Body := [], Host := "attacker.example".toList }] ∧
    (upstreamExample.ResolveReference requestAbsoluteForm.URL).Host ≠ upstreamExample.Host ∧
    (upstreamExample.ResolveReference requestAbsoluteForm.URL).Scheme
      ≠ upstreamExample.Scheme := by
  refine ⟨by decide, by decide, by decide, by decide, by decide⟩

/-- C3 (the code at the failing inputs): with the Upstream Target
https://api.internal.example the handler does not forward the inbound path and query
byte for byte.  For `CONNECT /a/../b` the destination it computes is
https://api.internal.example/b and the request handed to the transport has the path
`/b`: the dot segments are resolved away.  For `GET /p?a#frag` the inbound query is
`a#frag`, the destination keeps it, and the request handed to the transport has the
query `a` and the fragment `frag`, because the printed destination is parsed again.
For `GET /a^b|c` the destination is printed as https://api.internal.example/a%5Eb%7Cc
and that is the escaped path of the request handed to the transport: two bytes of the
inbound path are percent-encoded. -/
theorem path_and_query_are_not_preserved :
    (ParseRequestURI "/a/../b".toList = some requestDotSegments.URL ∧
      (upstreamExample.ResolveReference requestDotSegments.URL).String
        = "https://api.internal.example/b".toList ∧
      (upstreamExample.ResolveReference requestDotSegments.URL).Path
        ≠ requestDotSegments.URL.Path ∧
      (handleProxyRequest envExample storeExample ResponseWriter.fresh
          requestDotSegments).events
        = [Event.token, Event.dispatch
            { Method := "CONNECT".toList,
              URL := { Scheme := "https".toList, Host := "api.internal.example".toList,
                       Path := "/b".toList },
              Header := [("Authorization".toList, ["Bearer tok".toList]),
                         ("Accept".toList, ["text/html".toList, "*/*".toList])],
              Body := [], Host := "api.internal.example".toList }]) ∧
    (ParseRequestURI "/p?a#frag".toList = some requestNumberSign.URL ∧
      (upstreamExample.ResolveReference requestNumberSign.URL).RawQuery = "a#frag".toList ∧
      (upstreamExample.ResolveReference requestNumberSign.URL).String
        = "https://api.internal.example/p?a#frag".toList ∧
      (handleProxyRequest envExample storeExample ResponseWriter.fresh
          requestNumberSign).events
        = [Event.token, Event.dispatch
            { Method := "GET".toList,
              URL := { Scheme := "https".toList, Host := "api.internal.example".toList,
                       Path := "/p".toList, RawQuery := "a".toList,
                       Fragment := "frag".toList },
              Header := [("Authorization".toList, ["Bearer tok".toList]),
                         ("Accept".toList, ["text/html".toList, "*/*".toList])],
              Body := [], Host := "api.internal.example".toList }]) ∧
    (ParseRequestURI "/a^b|c".toList = some requestUnescapedBytes.URL ∧
      (upstreamExample.ResolveReference requestUnescapedBytes.URL).String
        = "https://api.internal.example/a%5Eb%7Cc".toList ∧
      (handleProxyRequest envExample storeExample ResponseWriter.fresh
          requestUnescapedBytes).events
        = [Event.token, Event.dispatch
            { Method := "GET".toList,
              URL := { Scheme := "https".toList, Host := "api.internal.example".toList,
                       Path := "/a^b|c".toList },
              Header := [("Authorization".toList, ["Bearer tok".toList]),
                         ("Accept".toList, ["text/html".toList, "*/*".toList])],
              Body := [], Host := "api.internal.example".toList }] ∧
      URL.EscapedPath { Scheme := "https".toList, Host := "api.internal.example".toList,
                        Path := "/a^b|c".toList } = "/a%5Eb%7Cc".toList) := by
  refine ⟨⟨by decide, by decide, by decide, by decide⟩,
    ⟨by decide, by decide, by decide, by decide⟩,
    ⟨by decide, by decide, by decide, by decide⟩⟩

/-- Witness for C4: the upstream sent Content-Length, connection and
TRANSFER-encoding; of the relayed names, X-Custom is none of the four. -/
theorem copyResponse_excludes_managed_witness :
    ResponseWriter.fresh.header = [] ∧
    (copyResponse ResponseWriter.fresh responseExample).header.keys
      = ["X-Custom".toList, "Set-Cookie".toList] ∧
    asciiLower "X-Custom".toList ≠ "content-encoding".toList ∧
    asciiLower "X-Custom".toList ≠ "content-length".toList ∧
    asciiLower "X-Custom".toList ≠ "transfer-encoding".toList ∧
    asciiLower "X-Custom".toList ≠ "connection".toList ∧
    isManagedHeader "X-Custom".toList = false :=
  ⟨rfl, by decide,
    copyResponse_excludes_managed ResponseWriter.fresh responseExample rfl
      "X-Custom".toList (by decide)⟩

/-- Witness for C5: the two values of Set-Cookie are relayed in the upstream order. -/
theorem copyResponse_relays_other_headers_witness :
    ResponseWriter.fresh.header = [] ∧ canonicalResponseExample.Header.WF ∧
    "Set-Cookie".toList ∈ canonicalResponseExample.Header.keys ∧
    asciiLower "Set-Cookie".toList = "set-cookie".toList ∧
    canonicalResponseExample.Header.get "Set-Cookie".toList = ["a=1".toList, "b=2".toList] ∧
    (copyResponse ResponseWriter.fresh canonicalResponseExample).header.get "Set-Cookie".toList
      = canonicalResponseExample.Header.get "Set-Cookie".toList :=
  ⟨rfl, by decide, by decide, by decide, by decide,
    copyResponse_relays_other_headers ResponseWriter.fresh canonicalResponseExample rfl
      (by decide) "Set-Cookie".toList (by decide) (by decide) (by decide) (by decide)
      (by decide) (by decide)⟩

/-- Witness for C6: the token provider fails for `requestExample`. -/
theorem token_error_is_not_forwarded_witness :
    ResponseWriter.fresh.status = none ∧
    envTokenError.tokenSource = .error "metadata server unreachable".toList ∧
    (handleProxyRequest envTokenError storeExample ResponseWriter.fresh requestExample).w.status
      = some 500 ∧
    Event.dispatch outboundExample ∉
      (handleProxyRequest envTokenError storeExample ResponseWriter.fresh requestExample).events :=
  ⟨rfl, rfl,
    (token_error_is_not_forwarded envTokenError storeExample ResponseWriter.fresh requestExample
      "metadata server unreachable".toList rfl rfl).1,
    (token_error_is_not_forwarded envTokenError storeExample ResponseWriter.fresh requestExample
      "metadata server unreachable".toList rfl rfl).2 outboundExample⟩

/-- Witness for C7: the transport fails for `requestExample`. -/
theorem transport_error_is_bad_gateway_witness :
    ResponseWriter.fresh.status = none ∧
    Event.dispatch outboundExample ∈
      (handleProxyRequest envTransportError storeExample ResponseWriter.fresh
        requestExample).events ∧
    envTransportError.httpClient outboundExample = .error "dial tcp: connection refused".toList ∧
    (handleProxyRequest envTransportError storeExample ResponseWriter.fresh requestExample).w.status
      = some 502 ∧
    (handleProxyRequest envTransportError storeExample ResponseWriter.fresh requestExample).w
      = httpError ResponseWriter.fresh "Bad Gateway".toList 502 ∧
    (handleProxyRequest envTransportError storeExample ResponseWriter.fresh requestExample).events
      = [Event.token, Event.dispatch outboundExample] :=
  ⟨rfl, by decide, rfl,
    transport_error_is_bad_gateway envTransportError storeExample ResponseWriter.fresh
      requestExample outboundExample "dial tcp: connection refused".toList rfl (by decide) rfl⟩

/-- Witness for C9: Accept is carried over with both values in order, and the inbound
map still holds the caller's Authorization value afterwards. -/
theorem outbound_headers_overlay_authorization_witness :
    requestExample.Header < storeExample.headers.length ∧
    outboundExample.Header.lookup "Accept".toList
      = (if "Accept".toList = "Authorization".toList
          then some ["Bearer ".toList ++ "tok".toList]
          else (storeExample.read requestExample.Header).lookup "Accept".toList) ∧
    (handleProxyRequest envExample storeExample ResponseWriter.fresh requestExample).store.read
        requestExample.Header
      = storeExample.read requestExample.Header :=
  ⟨by decide,
    (outbound_headers_overlay_authorization envExample storeExample ResponseWriter.fresh
      requestExample ⟨"tok".toList⟩ outboundExample (by decide) rfl (by decide)).1
        "Accept".toList,
    (outbound_headers_overlay_authorization envExample storeExample ResponseWriter.fresh
      requestExample ⟨"tok".toList⟩ outboundExample (by decide) rfl (by decide)).2⟩

/-- Counterexample for C10: for the inbound request `GET /?#%zz` the destination
`https://api.internal.example/?#%zz` does not parse, so the outbound request cannot be
built, and the caller receives status 500, which is not a client-error status. -/
theorem construction_error_is_not_client_error :
    ParseRequestURI "/?#%zz".toList = some requestBadFragment.URL ∧
    (upstreamExample.ResolveReference requestBadFragment.URL).String
      = "https://api.internal.example/?#%zz".toList ∧
    NewRequestWithContext storeExample requestBadFragment.Method
      (upstreamExample.ResolveReference requestBadFragment.URL).String
      requestBadFragment.Body = none ∧
    (handleProxyRequest envExample storeExample ResponseWriter.fresh requestBadFragment).w.status
      = some 500 ∧
    ¬ (∃ code, (handleProxyRequest envExample storeExample ResponseWriter.fresh
        requestBadFragment).w.status = some code ∧ 400 ≤ code ∧ code < 500) := by
  have hs : (handleProxyRequest envExample storeExample ResponseWriter.fresh
      requestBadFragment).w.status = some 500 := by decide
  refine ⟨by decide, by decide, by decide, hs, ?_⟩
  rintro ⟨code, hc, h1, h2⟩
  rw [hs] at hc
  cases hc
  omega

/-- Witness for C10 (amended): the inbound request `GET /?#%zz`. -/
theorem construction_error_is_internal_server_error_witness :
    ResponseWriter.fresh.status = none ∧
    (handleProxyRequest envExample storeExample ResponseWriter.fresh requestBadFragment).w.status
      = some 500 ∧
    (handleProxyRequest envExample storeExample ResponseWriter.fresh requestBadFragment).w
      = httpError ResponseWriter.fresh "Internal Server Error".toList 500 ∧
    (handleProxyRequest envExample storeExample ResponseWriter.fresh requestBadFragment).events
      = [] :=
  ⟨rfl,
    construction_error_is_internal_server_error envExample storeExample ResponseWriter.fresh
      requestBadFragment rfl (by decide)⟩

end AuthProxy
